import Mathlib

/-!
# bottywa: instance lifecycle, contact ledger and welcome-message pool

A shallow embedding of `src/app.js`.  Every `async` function of the source
becomes a pure function on an explicit `Disk` (the JSON files and artifacts
the process reads and writes) and, where the source uses it, the in-memory
registry `botInstances`.

Modelling conventions.

* A file read sees one of three things: the file is absent (`ENOENT`), its
  text does not parse, or it parses to a value of the expected shape.
* `fsPromises.writeFile` is taken to succeed; what the file system can do to
  the code is the state of the files it reads, and (for the teardown that the
  source wraps in its own `try/catch`) an `unlinkSync`/`rmSync` that throws.
* `Math.random()` and `new Date()` are parameters of the functions that
  call them.  Numbers are rationals; the product `Math.random() * length`
  is the exact product rounded to the nearest double, ties to even.
* A contact ledger is reached through two paths: `loadContacts` and
  `saveContacts` use a path relative to the working directory, the admin
  handlers test and unlink `path.join(QR_DIR, ...)`.  The disk records
  whether the process was started in the application directory; when it
  was, both paths name one file, otherwise they name two.
* File names are keyed by the instance name; instance names, phones and
  messages are strings.
-/

namespace Bottywa

/-! ## Data model -/

/-- Exceptions raised inside the source: a JSON text that does not parse,
a property access on `undefined`, a failing external call, and
`new Error(message)`. -/
inductive JsError where
  | parseError
  | typeError
  | external
  | error (message : String)
  deriving DecidableEq, Repr

/-- What `readFile` followed by `JSON.parse` can find at a path. -/
inductive JSONFile (α : Type) where
  | absent
  | unparsable
  | parsed (data : α)
  deriving DecidableEq, Repr

/-- The document `botConfig.json`: an object whose `instances` field may be
missing. -/
structure BotConfig where
  instances : Option (List String)
  deriving DecidableEq, Repr

/-- One record of `<botName>_contacts.json`. -/
structure ContactRecord where
  phone : String
  date : String
  time : String
  responseMessage : String
  deriving DecidableEq, Repr

/-- The two strings `addContact` derives from `new Date()`:
`toISOString().split('T')[0]` and `toTimeString().split(' ')[0]`. -/
structure Now where
  date : String
  time : String
  deriving DecidableEq, Repr

/-- An entry of `botInstances` (the provider and bot handles are opaque to
every function modelled here). -/
structure Instance where
  name : String
  isConnected : Bool
  deriving DecidableEq, Repr

/-- The files the process reads and writes.  `contacts name` is the ledger
`<name>_contacts.json` relative to the working directory, the file of
`loadContacts` and `saveContacts`.  `startedInAppDir` says whether the
working directory is the application directory `QR_DIR`; when it is not,
`appContacts name` is the separate file `<name>_contacts.json` inside
`QR_DIR`.  `qr`, `db` and `sessions` say whether the artifact of that name
exists inside `QR_DIR`. -/
structure Disk where
  botConfig : JSONFile BotConfig
  welcomeMessages : JSONFile (List String)
  contacts : String → JSONFile (List ContactRecord)
  qr : String → Bool
  db : String → Bool
  sessions : String → Bool
  startedInAppDir : Bool
  appContacts : String → JSONFile (List ContactRecord)

/-! ## Persistence helpers (`app.js` 37-102) -/

/-- Source `loadBotConfig`: a missing file reads as `{ instances: [] }`,
any other failure is rethrown. -/
def loadBotConfig (d : Disk) : Except JsError BotConfig :=
  match d.botConfig with
  | .absent => .ok { instances := some [] }
  | .unparsable => .error .parseError
  | .parsed config => .ok config

/-- Source `saveBotConfig`. -/
def saveBotConfig (d : Disk) (config : BotConfig) : Disk :=
  { d with botConfig := .parsed config }

/-- Source `loadJSONFile`: a missing file reads as `[]`. -/
def loadJSONFile {α : Type} (file : JSONFile (List α)) : Except JsError (List α) :=
  match file with
  | .absent => .ok []
  | .unparsable => .error .parseError
  | .parsed data => .ok data

/-- Source `loadWelcomeMessages`. -/
def loadWelcomeMessages (d : Disk) : Except JsError (List String) :=
  loadJSONFile d.welcomeMessages

/-- Source `saveWelcomeMessages`. -/
def saveWelcomeMessages (d : Disk) (messages : List String) : Disk :=
  { d with welcomeMessages := .parsed messages }

/-- Source `loadContacts`. -/
def loadContacts (d : Disk) (botName : String) : Except JsError (List ContactRecord) :=
  loadJSONFile (d.contacts botName)

/-- Source `saveContacts`. -/
def saveContacts (d : Disk) (botName : String) (contacts : List ContactRecord) : Disk :=
  { d with contacts := Function.update d.contacts botName (.parsed contacts) }

/-! ## Contact ledger (`app.js` 109-126) -/

/-- Source `isNewContact`. -/
def isNewContact (d : Disk) (botName phone : String) : Except JsError Bool := do
  let contacts ← loadContacts d botName
  pure (!contacts.any (fun contact => contact.phone == phone))

/-- The object literal pushed by `addContact` (`app.js` 118-123). -/
def newRecord (phone responseMessage : String) (now : Now) : ContactRecord :=
  { phone := phone, date := now.date, time := now.time, responseMessage := responseMessage }

/-- Source `addContact`: the record is pushed and the ledger saved only when
no record has that phone. -/
def addContact (d : Disk) (botName phone responseMessage : String) (now : Now) :
    Except JsError Disk := do
  let contacts ← loadContacts d botName
  if !contacts.any (fun contact => contact.phone == phone) then
    pure (saveContacts d botName (contacts ++ [newRecord phone responseMessage now]))
  else
    pure d

/-- A sequence of `addContact` calls for one phone on one instance, each with
its own message and clock reading. -/
def addContactCalls (d : Disk) (botName phone : String) :
    List (String × Now) → Except JsError Disk
  | [] => .ok d
  | (responseMessage, now) :: rest => do
    let d1 ← addContact d botName phone responseMessage now
    addContactCalls d1 botName phone rest

/-- Number of records of a ledger whose phone is `phone`. -/
def recordsFor (phone : String) (ledger : List ContactRecord) : Nat :=
  (ledger.filter (fun contact => contact.phone == phone)).length

/-- The records of a ledger that belong to other phones, in order. -/
def recordsOfOthers (phone : String) (ledger : List ContactRecord) : List ContactRecord :=
  ledger.filter (fun contact => !(contact.phone == phone))

/-! ## Welcome-message pool sampling (`app.js` 104-107) -/

/-- JavaScript `value || fallback` on a string-or-`undefined` value: the
fallback is taken when the value is `undefined` or the empty string. -/
def orElse (value : Option String) (fallback : String) : String :=
  match value with
  | none => fallback
  | some s => if s = "" then fallback else s

/-- JavaScript `messages[index]` for an integer-valued number: `undefined`
outside `0 .. length - 1`. -/
def elementAt (messages : List String) (index : Int) : Option String :=
  if 0 ≤ index then messages[index.toNat]? else none

/-- Nearest integer to a rational, a tie going to the even neighbour. -/
def roundHalfEven (q : ℚ) : Int :=
  if q - ⌊q⌋ < 1 / 2 then ⌊q⌋
  else if 1 / 2 < q - ⌊q⌋ then ⌊q⌋ + 1
  else if ⌊q⌋ % 2 = 0 then ⌊q⌋
  else ⌊q⌋ + 1

/-- Exponent `e` of the binade `[2 ^ e, 2 ^ (e + 1))` of a positive number,
not below the exponent `-1022` of the smallest normal double. -/
def binade (x : ℚ) : Int := max (Int.log 2 x) (-1022)

/-- Spacing of the doubles in the binade of `x`: 52 fraction bits. -/
def ulp (x : ℚ) : ℚ := (2 : ℚ) ^ (binade x - 52)

/-- The double nearest to a non-negative rational below `2 ^ 1024`. -/
def roundMagnitude (x : ℚ) : ℚ := (roundHalfEven (x / ulp x) : ℚ) * ulp x

/-- IEEE-754 binary64 rounding to nearest, ties to even, of a rational of
magnitude below `2 ^ 1024`: the value of a JavaScript arithmetic result
whose exact value is `x`. -/
def roundDouble (x : ℚ) : ℚ :=
  if x < 0 then -roundMagnitude (-x) else roundMagnitude x

/-- The rationals that are finite doubles: the values a JavaScript number,
such as the result of `Math.random()`, can take. -/
def IsDouble (q : ℚ) : Prop := roundDouble q = q ∧ |q| < 2 ^ 1024

instance decidableIsDouble : DecidablePred IsDouble :=
  fun q => by unfold IsDouble; infer_instance

/-- The index `Math.floor(random * messages.length)`: the product is a
double multiplication, the length being an exact double. -/
def randomIndex (messages : List String) (random : ℚ) : Int :=
  ⌊roundDouble (random * (messages.length : ℚ))⌋

/-- Source `getRandomWelcomeMessage`, with the value of `Math.random()` as
a parameter. -/
def getRandomWelcomeMessage (d : Disk) (random : ℚ) : Except JsError String := do
  let messages ← loadWelcomeMessages d
  pure (orElse (elementAt messages (randomIndex messages random)) "Bienvenido!")

/-! ## Config bootstrap (`app.js` 14-35) -/

/-- The literal `{ instances: ['bot-1'] }`. -/
def defaultConfig : BotConfig := { instances := some ["bot-1"] }

/-- Source `initializeBotConfig`: returns the config and the disk it leaves.
The `try` branch seeds the default when the instance list is missing or
empty; the `catch` branch seeds it when loading throws. -/
def initializeBotConfig (d : Disk) : BotConfig × Disk :=
  match loadBotConfig d with
  | .ok config =>
    match config.instances with
    | none => (defaultConfig, saveBotConfig d defaultConfig)
    | some instances =>
      if instances.length = 0 then (defaultConfig, saveBotConfig d defaultConfig)
      else (config, d)
  | .error _ => (defaultConfig, saveBotConfig d defaultConfig)

/-! ## Welcome flow (`app.js` 128-141) -/

/-- The action of `createFlowForBot botName` for a trigger from `sender`
(`ctx.from`): the list of `flowDynamic` messages and the disk afterwards.
The delay before the action is not modelled. -/
def welcomeAction (d : Disk) (botName sender : String) (random : ℚ) (now : Now) :
    Except JsError (List String × Disk) := do
  let phone := sender
  if (← isNewContact d botName phone) then
    let welcomeMessage ← getRandomWelcomeMessage d random
    let d1 ← addContact d botName phone welcomeMessage now
    pure ([welcomeMessage], d1)
  else
    pure ([], d)

/-! ## Instances and their connection status (`app.js` 385-426) -/

/-- The method `updateConnectionStatus` of an instance. -/
def updateConnectionStatus (inst : Instance) (status : Bool) : Instance :=
  { inst with isConnected := status }

/-- The object literal built by `createBotInstance`. -/
def newInstance (name : String) : Instance :=
  { name := name, isConnected := false }

/-- Source `createBotInstance`; `createOk` says whether the external
`createBot` call resolves. -/
def createBotInstance (name : String) (createOk : Bool) : Except JsError Instance :=
  if createOk then .ok (newInstance name) else .error .external

/-- What the restart handler does to the instance it finds (`app.js`
260-261). -/
def markRestarted (inst : Instance) : Instance :=
  updateConnectionStatus { inst with isConnected := false } false

/-- The events that touch the status of one instance: the three provider
events registered by `createBotInstance` and the admin restart. -/
inductive LifecycleEvent where
  | qr
  | ready
  | require_action
  | restart
  deriving DecidableEq, Repr

/-- The handler run for each event. -/
def onEvent (inst : Instance) : LifecycleEvent → Instance
  | .qr => updateConnectionStatus inst false
  | .ready => updateConnectionStatus inst true
  | .require_action => updateConnectionStatus inst false
  | .restart => markRestarted inst

/-- The instance after a sequence of events, oldest first. -/
def afterEvents (inst : Instance) (events : List LifecycleEvent) : Instance :=
  events.foldl onEvent inst

/-! ## Array helpers -/

/-- JavaScript `findIndex`; `none` stands for `-1`. -/
def findIndex {α : Type} (p : α → Bool) : List α → Option Nat
  | [] => none
  | x :: xs => if p x then some 0 else (findIndex p xs).map (fun i => i + 1)

/-- JavaScript `indexOf` on an array of strings; `none` stands for `-1`. -/
def indexOf (xs : List String) (x : String) : Option Nat :=
  findIndex (fun y => y == x) xs

/-- JavaScript `splice(start, deleteCount)` for `0 ≤ start`: the array that
remains. -/
def splice {α : Type} (xs : List α) (start deleteCount : Nat) : List α :=
  xs.take start ++ xs.drop (start + deleteCount)

/-- The object at index `i` mutated in place by `f`; an index past the end
changes nothing. -/
def updateAt {α : Type} (f : α → α) : List α → Nat → List α
  | [], _ => []
  | x :: xs, 0 => f x :: xs
  | x :: xs, i + 1 => x :: updateAt f xs i

/-! ## Admin API (`app.js` 143-368) -/

/-- The per-instance view returned by the instance handlers. -/
structure InstanceInfo where
  name : String
  status : String
  contactCount : Option Nat
  deriving DecidableEq, Repr

/-- Response bodies. -/
inductive Body where
  | success
  | created (message : String) (inst : InstanceInfo)
  | listing (message : String) (instances : List InstanceInfo)
  | done (message : String)
  | thrown (error : JsError)
  | failure (error : String)
  | text (content : String)
  | file (path : String)
  deriving DecidableEq, Repr

/-- An HTTP response: status code and body. -/
structure Response where
  status : Nat
  body : Body
  deriving DecidableEq, Repr

/-- `inst.isConnected ? 'Connected' : 'Disconnected'`. -/
def statusText (inst : Instance) : String :=
  if inst.isConnected then "Connected" else "Disconnected"

/-- Handler of `POST /instances`: response, disk and registry afterwards. -/
def postInstances (d : Disk) (botInstances : List Instance) (name : String)
    (createOk : Bool) : Response × Disk × List Instance :=
  match loadBotConfig d with
  | .error e => (⟨400, .thrown e⟩, d, botInstances)
  | .ok botConfig =>
    match botConfig.instances with
    | none => (⟨400, .thrown .typeError⟩, d, botInstances)
    | some instances =>
      if instances.contains name then
        (⟨400, .thrown (.error ("Instance " ++ name ++ " already exists"))⟩, d, botInstances)
      else
        let d1 := saveBotConfig d { botConfig with instances := some (instances ++ [name]) }
        match createBotInstance name createOk with
        | .error e => (⟨400, .thrown e⟩, d1, botInstances)
        | .ok inst =>
          (⟨200, .created ("Instance " ++ name ++ " created successfully")
              { name := inst.name, status := statusText inst, contactCount := some 0 }⟩,
            d1, botInstances ++ [inst])

/-- The four on-disk artifacts of an instance, in the order the delete
handler removes them. -/
inductive Artifact where
  | qr
  | db
  | contacts
  | sessions
  deriving DecidableEq, Repr

/-- `fs.existsSync` on a JSON file. -/
def JSONFile.isPresent {α : Type} : JSONFile α → Bool
  | .absent => false
  | _ => true

/-- The file at `path.join(QR_DIR, name + '_contacts.json')`: the ledger
of `loadContacts` when the process was started in the application
directory, another file otherwise. -/
def contactsAtQrDir (d : Disk) (name : String) : JSONFile (List ContactRecord) :=
  if d.startedInAppDir then d.contacts name else d.appContacts name

/-- `fs.existsSync` on the path of an artifact of instance `name`. -/
def artifactExists (d : Disk) (name : String) : Artifact → Bool
  | .qr => d.qr name
  | .db => d.db name
  | .contacts => (contactsAtQrDir d name).isPresent
  | .sessions => d.sessions name

/-- The disk after `unlinkSync` (`rmSync` for the sessions directory) of an
artifact of instance `name` succeeds. -/
def unlinkArtifact (d : Disk) (name : String) : Artifact → Disk
  | .qr => { d with qr := Function.update d.qr name false }
  | .db => { d with db := Function.update d.db name false }
  | .contacts =>
    if d.startedInAppDir then { d with contacts := Function.update d.contacts name .absent }
    else { d with appContacts := Function.update d.appContacts name .absent }
  | .sessions => { d with sessions := Function.update d.sessions name false }

/-- The lines `if (fs.existsSync(p)) fs.unlinkSync(p)` of a `try` block, run
in order; `removeOk a` says whether removing artifact `a` succeeds.  A
removal that throws leaves the `try` block: the later lines are skipped and
the `catch` only logs. -/
def removeEach (name : String) (removeOk : Artifact → Bool) : List Artifact → Disk → Disk
  | [], d => d
  | a :: rest, d =>
    if artifactExists d name a then
      if removeOk a then removeEach name removeOk rest (unlinkArtifact d name a)
      else d
    else removeEach name removeOk rest d

/-- The `try { ... } catch` block of the delete handler (`app.js` 223-230). -/
def removeArtifacts (d : Disk) (name : String) (removeOk : Artifact → Bool) : Disk :=
  removeEach name removeOk [.qr, .db, .contacts, .sessions] d

/-- Handler of `DELETE /instances/:name`. -/
def deleteInstances (d : Disk) (botInstances : List Instance) (name : String)
    (removeOk : Artifact → Bool) : Response × Disk × List Instance :=
  match loadBotConfig d with
  | .error e => (⟨400, .thrown e⟩, d, botInstances)
  | .ok botConfig =>
    match botConfig.instances with
    | none => (⟨400, .thrown .typeError⟩, d, botInstances)
    | some instances =>
      match indexOf instances name with
      | none =>
        (⟨400, .thrown (.error ("Instance " ++ name ++ " does not exist"))⟩, d, botInstances)
      | some index =>
        let d1 := saveBotConfig d { botConfig with instances := some (splice instances index 1) }
        let registry :=
          match findIndex (fun inst => inst.name == name) botInstances with
          | some instanceIndex => splice botInstances instanceIndex 1
          | none => botInstances
        let d2 := removeArtifacts d1 name removeOk
        (⟨200, .listing ("Instance " ++ name ++ " deleted successfully")
            (registry.map (fun inst =>
              { name := inst.name, status := statusText inst, contactCount := some 0 }))⟩,
          d2, registry)

/-- Handler of `POST /instances/:botName/restart`; `rmOk` says whether
removing the sessions directory succeeds. -/
def restartInstance (d : Disk) (botInstances : List Instance) (botName : String)
    (rmOk : Bool) : Response × Disk × List Instance :=
  if artifactExists d botName .sessions && !rmOk then
    (⟨500, .thrown .external⟩, d, botInstances)
  else
    let d1 :=
      if artifactExists d botName .sessions then unlinkArtifact d botName .sessions else d
    let registry :=
      match findIndex (fun inst => inst.name == botName) botInstances with
      | some i => updateAt markRestarted botInstances i
      | none => botInstances
    (⟨200, .listing ("Instance " ++ botName ++ " restarted successfully")
        (registry.map (fun inst =>
          { name := inst.name, status := statusText inst, contactCount := none }))⟩,
      d1, registry)

/-- Handler of `GET /qr/:botName`. -/
def getQr (d : Disk) (botName : String) : Response :=
  if d.qr botName then ⟨200, .file (botName ++ ".qr.png")⟩
  else ⟨404, .text "QR code not available"⟩

/-- Handler of `POST /messages`.  The handler has no `try/catch`: `.error`
is a load that throws, with no response sent. -/
def postMessages (d : Disk) (message : String) : Except JsError (Response × Disk) := do
  let messages ← loadWelcomeMessages d
  pure (⟨200, .success⟩, saveWelcomeMessages d (messages ++ [message]))

/-- Handler of `PUT /messages/:id`; `id` is the value of
`parseInt(req.params.id)`, `none` standing for `NaN`. -/
def putMessages (d : Disk) (id : Option Int) (message : String) :
    Except JsError (Response × Disk) := do
  let messages ← loadWelcomeMessages d
  match id with
  | some i =>
    if 0 ≤ i ∧ i < messages.length then
      pure (⟨200, .success⟩, saveWelcomeMessages d (messages.set i.toNat message))
    else
      pure (⟨404, .failure "Message not found"⟩, d)
  | none => pure (⟨404, .failure "Message not found"⟩, d)

/-- Handler of `DELETE /messages/:id`; `id` as in `putMessages`. -/
def deleteMessages (d : Disk) (id : Option Int) : Except JsError (Response × Disk) := do
  let messages ← loadWelcomeMessages d
  match id with
  | some i =>
    if 0 ≤ i ∧ i < messages.length then
      pure (⟨200, .success⟩, saveWelcomeMessages d (splice messages i.toNat 1))
    else
      pure (⟨404, .failure "Message not found"⟩, d)
  | none => pure (⟨404, .failure "Message not found"⟩, d)

/-- Handler of `DELETE /contacts/:botName/:phone` (`app.js` 352-368): the
existence test is on the `QR_DIR` path, the ledger read and rewritten is
the one of `loadContacts` and `saveContacts`; a load that throws is caught
and answered with 500. -/
def deleteContacts (d : Disk) (botName phone : String) : Response × Disk :=
  if (contactsAtQrDir d botName).isPresent then
    match loadContacts d botName with
    | .error _ => (⟨500, .failure "Internal server error"⟩, d)
    | .ok contacts =>
      (⟨200, .done "Contact deleted successfully"⟩,
        saveContacts d botName (contacts.filter (fun contact => contact.phone != phone)))
  else
    (⟨404, .failure "Contacts file not found"⟩, d)

/-- The instance list held by the config document on disk: the `instances`
array of a parsed document, and the empty list when the file is absent,
does not parse, or has no such field. -/
def configuredInstances (d : Disk) : List String :=
  match d.botConfig with
  | .parsed config => config.instances.getD []
  | _ => []

/-- The end-to-end scenario of the message pool: two `POST /messages`
followed by `DELETE /messages/0`; the result is the pool file left on disk. -/
def postPostDelete (d : Disk) (first second : String) :
    Except JsError (JSONFile (List String)) := do
  let (_, d1) ← postMessages d first
  let (_, d2) ← postMessages d1 second
  let (_, d3) ← deleteMessages d2 (some 0)
  pure d3.welcomeMessages

/-! ## Example states -/

/-- A disk with no file at all, of a process started in the application
directory. -/
def emptyDisk : Disk :=
  { botConfig := .absent, welcomeMessages := .absent, contacts := fun _ => .absent,
    qr := fun _ => false, db := fun _ => false, sessions := fun _ => false,
    startedInAppDir := true, appContacts := fun _ => .absent }

/-- A disk with no file at all, of a process started from another directory
than the application directory (`node src/app.js` from the parent, or the
packaged executable launched from elsewhere). -/
def awayDisk : Disk := { emptyDisk with startedInAppDir := false }

/-- A clock reading. -/
def morning : Now := { date := "2024-05-01", time := "09:15:00" }

/-- A later clock reading. -/
def evening : Now := { date := "2024-05-01", time := "21:40:30" }

/-- A disk whose welcome-message pool holds two messages. -/
def poolDisk : Disk := saveWelcomeMessages emptyDisk ["Hola", "Buen dia"]

/-- A disk whose pool holds a message and an empty string, as left by
`POST /messages` with `message: ""`. -/
def blankPoolDisk : Disk := saveWelcomeMessages emptyDisk ["Hola", ""]

/-- A disk whose config document lists two instances. -/
def twoBotsDisk : Disk := saveBotConfig emptyDisk { instances := some ["bot-1", "bot-2"] }

/-- A config document that lists `bot-2` twice, as a hand-edited file can. -/
def duplicateDisk : Disk := saveBotConfig emptyDisk { instances := some ["bot-2", "bot-2"] }

/-- A disk with two configured instances and the QR image of `bot-2`. -/
def qrDisk : Disk := { twoBotsDisk with qr := fun name => name == "bot-2" }

/-- An `unlinkSync` that throws on the QR image. -/
def qrRemovalFails : Artifact → Bool
  | .qr => false
  | _ => true

/-- Every removal succeeds. -/
def removalsSucceed : Artifact → Bool := fun _ => true

/-- A disk on which `bot-1` has already welcomed one phone. -/
def greetedDisk : Disk :=
  saveContacts poolDisk "bot-1" [newRecord "5491100000000" "Hola" morning]

/-- The disk `awayDisk` after `bot-1` has welcomed one phone: the ledger of
`loadContacts` holds the record, the application directory holds no ledger. -/
def awayGreetedDisk : Disk :=
  saveContacts awayDisk "bot-1" [newRecord "5491100000000" "Hola" morning]

/-! ## Contact ledger: lemmas -/

theorem loadContacts_saveContacts (d : Disk) (botName : String)
    (contacts : List ContactRecord) :
    loadContacts (saveContacts d botName contacts) botName = .ok contacts := by
  simp [loadContacts, saveContacts, loadJSONFile]

theorem saveContacts_contacts_of_ne (d : Disk) (botName other : String)
    (contacts : List ContactRecord) (h : other ≠ botName) :
    (saveContacts d botName contacts).contacts other = d.contacts other := by
  simp [saveContacts, Function.update_noteq h]

theorem any_phone_eq_false_iff (phone : String) (ledger : List ContactRecord) :
    ledger.any (fun contact => contact.phone == phone) = false ↔ recordsFor phone ledger = 0 := by
  induction ledger with
  | nil => simp [recordsFor]
  | cons c rest ih =>
    by_cases hc : c.phone = phone
    · simp [recordsFor, List.filter_cons, hc]
    · simp [recordsFor, List.filter_cons, hc] at ih ⊢

theorem recordsFor_append_own (phone responseMessage : String) (now : Now)
    (ledger : List ContactRecord) :
    recordsFor phone (ledger ++ [newRecord phone responseMessage now]) =
      recordsFor phone ledger + 1 := by
  simp [recordsFor, List.filter_append, newRecord]

theorem recordsOfOthers_append_own (phone responseMessage : String) (now : Now)
    (ledger : List ContactRecord) :
    recordsOfOthers phone (ledger ++ [newRecord phone responseMessage now]) =
      recordsOfOthers phone ledger := by
  simp [recordsOfOthers, List.filter_append, newRecord]

/-- What one `addContact` call does to a readable ledger. -/
theorem addContact_of_load (d : Disk) (botName phone responseMessage : String) (now : Now)
    (ledger : List ContactRecord) (hload : loadContacts d botName = .ok ledger) :
    addContact d botName phone responseMessage now =
      .ok (if recordsFor phone ledger = 0 then
        saveContacts d botName (ledger ++ [newRecord phone responseMessage now])
      else d) := by
  unfold addContact
  rw [hload]
  by_cases h0 : recordsFor phone ledger = 0
  · have hany := (any_phone_eq_false_iff phone ledger).mpr h0
    simp [bind, Except.bind, hany, h0, pure, Except.pure]
  · have hany : ledger.any (fun contact => contact.phone == phone) = true := by
      cases hb : ledger.any (fun contact => contact.phone == phone) with
      | true => rfl
      | false => exact absurd ((any_phone_eq_false_iff phone ledger).mp hb) h0
    simp [bind, Except.bind, hany, h0, pure, Except.pure]

/-- One call on a readable ledger: it succeeds, the ledger stays readable,
the phone ends with `max 1 n` records, and nothing else moves. -/
theorem addContact_step (d : Disk) (botName phone responseMessage : String) (now : Now)
    (ledger : List ContactRecord) (hload : loadContacts d botName = .ok ledger) :
    ∃ d1 ledger1, addContact d botName phone responseMessage now = .ok d1 ∧
      loadContacts d1 botName = .ok ledger1 ∧
      recordsFor phone ledger1 = max 1 (recordsFor phone ledger) ∧
      recordsOfOthers phone ledger1 = recordsOfOthers phone ledger ∧
      (∀ other, other ≠ botName → d1.contacts other = d.contacts other) := by
  by_cases h0 : recordsFor phone ledger = 0
  · refine ⟨saveContacts d botName (ledger ++ [newRecord phone responseMessage now]),
      ledger ++ [newRecord phone responseMessage now], ?_,
      loadContacts_saveContacts d botName _, ?_, ?_, ?_⟩
    · rw [addContact_of_load d botName phone responseMessage now ledger hload, if_pos h0]
    · rw [recordsFor_append_own, h0]; rfl
    · exact recordsOfOthers_append_own _ _ _ _
    · intro other hne
      exact saveContacts_contacts_of_ne d botName other _ hne
  · refine ⟨d, ledger, ?_, hload, ?_, rfl, fun _ _ => rfl⟩
    · rw [addContact_of_load d botName phone responseMessage now ledger hload, if_neg h0]
    · omega

/-- Any sequence of calls on a readable ledger. -/
theorem addContactCalls_steps (botName phone : String) (calls : List (String × Now)) :
    ∀ (d : Disk) (ledger : List ContactRecord), loadContacts d botName = .ok ledger →
    ∃ d1 ledger1, addContactCalls d botName phone calls = .ok d1 ∧
      loadContacts d1 botName = .ok ledger1 ∧
      recordsFor phone ledger1 =
        (if calls = [] then recordsFor phone ledger else max 1 (recordsFor phone ledger)) ∧
      recordsOfOthers phone ledger1 = recordsOfOthers phone ledger ∧
      (∀ other, other ≠ botName → d1.contacts other = d.contacts other) := by
  induction calls with
  | nil =>
    intro d ledger hload
    exact ⟨d, ledger, rfl, hload, by simp, rfl, fun _ _ => rfl⟩
  | cons call rest ih =>
    intro d ledger hload
    obtain ⟨responseMessage, now⟩ := call
    obtain ⟨d1, ledger1, hadd, hload1, hcount1, hothers1, hframe1⟩ :=
      addContact_step d botName phone responseMessage now ledger hload
    obtain ⟨d2, ledger2, hcalls, hload2, hcount2, hothers2, hframe2⟩ := ih d1 ledger1 hload1
    refine ⟨d2, ledger2, ?_, hload2, ?_, hothers2.trans hothers1, ?_⟩
    · simp [addContactCalls, hadd, hcalls, bind, Except.bind]
    · rw [hcount2, hcount1]
      by_cases hrest : rest = [] <;> simp [hrest]
    · intro other hne
      rw [hframe2 other hne, hframe1 other hne]

/-! ## C1 -/

/-- C1 (ledger uniqueness).  On an instance whose ledger is readable: after
every non-empty sequence of `addContact` calls with one phone, starting from
a ledger holding that phone at most once, the ledger holds exactly one
record for the phone, the records of the other phones are the same in the
same order, and the ledgers of the other instances are untouched; and a
single `addContact` call, from any readable ledger, leaves the records of
the other phones as they were. -/
theorem addContact_ledger_uniqueness (d : Disk) (botName phone : String)
    (ledger : List ContactRecord) (hload : loadContacts d botName = .ok ledger) :
    (∀ calls : List (String × Now), calls ≠ [] → recordsFor phone ledger ≤ 1 →
      ∃ d1 ledger1, addContactCalls d botName phone calls = .ok d1 ∧
        loadContacts d1 botName = .ok ledger1 ∧
        recordsFor phone ledger1 = 1 ∧
        recordsOfOthers phone ledger1 = recordsOfOthers phone ledger ∧
        (∀ other, other ≠ botName → d1.contacts other = d.contacts other)) ∧
    (∀ (responseMessage : String) (now : Now),
      ∃ d1 ledger1, addContact d botName phone responseMessage now = .ok d1 ∧
        loadContacts d1 botName = .ok ledger1 ∧
        recordsOfOthers phone ledger1 = recordsOfOthers phone ledger) := by
  constructor
  · intro calls hcalls hunique
    obtain ⟨d1, ledger1, hrun, hload1, hcount, hothers, hframe⟩ :=
      addContactCalls_steps botName phone calls d ledger hload
    refine ⟨d1, ledger1, hrun, hload1, ?_, hothers, hframe⟩
    rw [hcount, if_neg hcalls]
    omega
  · intro responseMessage now
    obtain ⟨d1, ledger1, hadd, hload1, _, hothers, _⟩ :=
      addContact_step d botName phone responseMessage now ledger hload
    exact ⟨d1, ledger1, hadd, hload1, hothers⟩

/-- Witness for C1: two calls for one phone on the empty disk. -/
theorem addContact_ledger_uniqueness_witness :
    ∃ d1 ledger1,
      addContactCalls emptyDisk "bot-1" "5491100000000"
        [("Hola", morning), ("Buenas", evening)] = .ok d1 ∧
      loadContacts d1 "bot-1" = .ok ledger1 ∧
      recordsFor "5491100000000" ledger1 = 1 ∧
      recordsOfOthers "5491100000000" ledger1 = recordsOfOthers "5491100000000" [] ∧
      (∀ other, other ≠ "bot-1" → d1.contacts other = emptyDisk.contacts other) :=
  (addContact_ledger_uniqueness emptyDisk "bot-1" "5491100000000" [] rfl).1
    [("Hola", morning), ("Buenas", evening)] (by decide) (by decide)

/-! ## C2 -/

/-- C2 (index-bound editing).  For every readable pool and every integer
`id` with `id < 0` or `id ≥ length`, `PUT /messages/:id` and
`DELETE /messages/:id` both answer 404 "Message not found" and hand back the
disk they were given: nothing is saved. -/
theorem messages_index_out_of_range (d : Disk) (pool : List String) (id : Int)
    (message : String) (hload : loadWelcomeMessages d = .ok pool)
    (hid : id < 0 ∨ (pool.length : Int) ≤ id) :
    putMessages d (some id) message = .ok (⟨404, .failure "Message not found"⟩, d) ∧
    deleteMessages d (some id) = .ok (⟨404, .failure "Message not found"⟩, d) := by
  have hnot : ¬ (0 ≤ id ∧ id < (pool.length : Int)) := by omega
  constructor
  · simp [putMessages, hload, bind, Except.bind, hnot, pure, Except.pure]
  · simp [deleteMessages, hload, bind, Except.bind, hnot, pure, Except.pure]

/-- Witness for C2: index 2 on a pool of two messages. -/
theorem messages_index_out_of_range_witness :
    putMessages poolDisk (some 2) "Nuevo" =
      .ok (⟨404, .failure "Message not found"⟩, poolDisk) ∧
    deleteMessages poolDisk (some 2) =
      .ok (⟨404, .failure "Message not found"⟩, poolDisk) :=
  messages_index_out_of_range poolDisk ["Hola", "Buen dia"] 2 "Nuevo" rfl (by decide)

/-! ## C3 -/

/-! ### Double rounding -/

theorem roundHalfEven_nonneg (q : ℚ) (h : 0 ≤ q) : 0 ≤ roundHalfEven q := by
  have hf : 0 ≤ ⌊q⌋ := Int.floor_nonneg.mpr h
  unfold roundHalfEven
  split_ifs <;> omega

theorem roundHalfEven_lt (q : ℚ) (N : Int) (h : q < (N : ℚ) - 1 / 2) : roundHalfEven q < N := by
  have hfl : (⌊q⌋ : ℚ) ≤ q := Int.floor_le q
  unfold roundHalfEven
  split_ifs with h1 h2 h3
  · rw [Int.floor_lt]; linarith
  · have hlt : (⌊q⌋ : ℚ) < ((N - 1 : Int) : ℚ) := by push_cast; linarith
    have := Int.cast_lt.mp hlt
    omega
  · rw [Int.floor_lt]; linarith
  · have hlt : (⌊q⌋ : ℚ) < ((N - 1 : Int) : ℚ) := by push_cast; linarith
    have := Int.cast_lt.mp hlt
    omega

theorem ulp_pos (x : ℚ) : 0 < ulp x := by
  unfold ulp
  positivity

theorem roundMagnitude_nonneg (x : ℚ) (h : 0 ≤ x) : 0 ≤ roundMagnitude x := by
  unfold roundMagnitude
  have := roundHalfEven_nonneg (x / ulp x) (div_nonneg h (ulp_pos x).le)
  have h2 : (0 : ℚ) ≤ (roundHalfEven (x / ulp x) : ℚ) := by exact_mod_cast this
  exact mul_nonneg h2 (ulp_pos x).le

theorem binade_le (x : ℚ) (hx : 0 < x) (b : Int) (hb : x < (2 : ℚ) ^ b) (hb2 : -1022 < b) :
    binade x < b := by
  unfold binade
  have h := (Int.lt_zpow_iff_log_lt (R := ℚ) (b := 2) (by norm_num) hx).mp (by exact_mod_cast hb)
  exact max_lt h hb2

/-- The power of two of the binade of a positive number below a positive integer is below
that integer. -/
theorem zpow_binade_lt (x : ℚ) (n : Nat) (hx : 0 < x) (hxn : x < n) (hn : 1 ≤ n) :
    (2 : ℚ) ^ binade x < n := by
  unfold binade
  rcases max_cases (Int.log 2 x) (-1022) with ⟨h, _⟩ | ⟨h, _⟩
  · rw [h]
    have := Int.zpow_log_le_self (R := ℚ) (b := 2) (by norm_num) hx
    have h2 : (2 : ℚ) ^ Int.log 2 x ≤ x := by exact_mod_cast this
    linarith
  · rw [h]
    have h1 : (2 : ℚ) ^ (-1022 : Int) < 1 := by
      apply zpow_lt_one_of_neg₀ (by norm_num) (by norm_num)
    have h2 : (1 : ℚ) ≤ n := by exact_mod_cast hn
    linarith

theorem roundMagnitude_zero : roundMagnitude 0 = 0 := by
  simp [roundMagnitude, roundHalfEven]

/-- A product that stays at least `n / 2 ^ 53` below the integer `n` rounds to a double
below `n`. -/
theorem roundDouble_lt (x : ℚ) (n : Nat) (hx0 : 0 ≤ x) (hn1 : 1 ≤ n) (hn : n < 2 ^ 53)
    (hx : x ≤ (n : ℚ) * (1 - 1 / 2 ^ 53)) :
    0 ≤ roundDouble x ∧ roundDouble x < n := by
  have hnq : (1 : ℚ) ≤ n := by exact_mod_cast hn1
  have hnot : ¬ x < 0 := not_lt.mpr hx0
  unfold roundDouble
  rw [if_neg hnot]
  refine ⟨roundMagnitude_nonneg x hx0, ?_⟩
  rcases hx0.eq_or_lt with h0 | hpos
  · rw [← h0, roundMagnitude_zero]
    linarith
  · have hxn : x < n := by
      have : (n : ℚ) * (1 - 1 / 2 ^ 53) < n := by
        have : (0 : ℚ) < (n : ℚ) * (1 / 2 ^ 53) := by positivity
        linarith
      linarith
    have hb : (2 : ℚ) ^ binade x < n := zpow_binade_lt x n hpos hxn hn1
    have hb53 : binade x < 53 := by
      have h1 : (2 : ℚ) ^ binade x < (2 : ℚ) ^ (53 : Int) := by
        have h53 : (2 : ℚ) ^ (53 : Int) = (2 : ℚ) ^ (53 : Nat) := by norm_num
        have : (n : ℚ) < (2 : ℚ) ^ (53 : Nat) := by exact_mod_cast hn
        rw [h53]
        linarith
      exact (zpow_lt_zpow_iff_right₀ (by norm_num : (1 : ℚ) < 2)).mp h1
    obtain ⟨k, hk⟩ : ∃ k : Nat, (k : Int) = 52 - binade x :=
      ⟨(52 - binade x).toNat, Int.toNat_of_nonneg (by omega)⟩
    have hu : ulp x * (2 : ℚ) ^ k = 1 := by
      unfold ulp
      rw [← zpow_natCast, hk, ← zpow_add₀ (by norm_num : (2 : ℚ) ≠ 0)]
      simp
    have hc : (0 : ℚ) < (2 : ℚ) ^ k := by positivity
    have hdiv : x / ulp x = x * (2 : ℚ) ^ k := by
      rw [div_eq_iff (ulp_pos x).ne', mul_assoc, mul_comm ((2 : ℚ) ^ k), hu, mul_one]
    have hbig : (2 : ℚ) ^ 52 < (n : ℚ) * (2 : ℚ) ^ k := by
      have h1 : (2 : ℚ) ^ binade x * (2 : ℚ) ^ k = (2 : ℚ) ^ 52 := by
        rw [← zpow_natCast (2 : ℚ) k, hk, ← zpow_add₀ (by norm_num : (2 : ℚ) ≠ 0)]
        have : binade x + (52 - binade x) = ((52 : Nat) : Int) := by omega
        rw [this, zpow_natCast]
      rw [← h1]
      exact mul_lt_mul_of_pos_right hb hc
    have hround : roundHalfEven (x / ulp x) < ((n * 2 ^ k : Nat) : Int) := by
      apply roundHalfEven_lt
      rw [hdiv]
      push_cast
      have h2 : x * (2 : ℚ) ^ k ≤ (n : ℚ) * (1 - 1 / 2 ^ 53) * (2 : ℚ) ^ k :=
        mul_le_mul_of_nonneg_right hx hc.le
      have h3 : (n : ℚ) * (1 - 1 / 2 ^ 53) * (2 : ℚ) ^ k =
          (n : ℚ) * (2 : ℚ) ^ k - (n : ℚ) * (2 : ℚ) ^ k / 2 ^ 53 := by ring
      have h4 : (1 : ℚ) / 2 < (n : ℚ) * (2 : ℚ) ^ k / 2 ^ 53 := by
        rw [lt_div_iff₀ (by positivity)]
        calc (1 : ℚ) / 2 * 2 ^ 53 = 2 ^ 52 := by norm_num
          _ < (n : ℚ) * (2 : ℚ) ^ k := hbig
      linarith
    have hle : (roundHalfEven (x / ulp x) : ℚ) ≤ (n : ℚ) * (2 : ℚ) ^ k - 1 := by
      have : roundHalfEven (x / ulp x) ≤ ((n * 2 ^ k : Nat) : Int) - 1 := by omega
      have h5 : (roundHalfEven (x / ulp x) : ℚ) ≤ ((((n * 2 ^ k : Nat) : Int) - 1 : Int) : ℚ) := by
        exact_mod_cast this
      simpa using h5
    unfold roundMagnitude
    calc (roundHalfEven (x / ulp x) : ℚ) * ulp x
        ≤ ((n : ℚ) * (2 : ℚ) ^ k - 1) * ulp x := mul_le_mul_of_nonneg_right hle (ulp_pos x).le
      _ = (n : ℚ) * (ulp x * (2 : ℚ) ^ k) - ulp x := by ring
      _ = (n : ℚ) - ulp x := by rw [hu, mul_one]
      _ < n := by linarith [ulp_pos x]

/-- The largest double below one is `1 - 2 ^ (-53)`. -/
theorem double_lt_one_le (r : ℚ) (hd : IsDouble r) (h0 : 0 ≤ r) (h1 : r < 1) :
    r ≤ 1 - 1 / 2 ^ 53 := by
  rcases h0.eq_or_lt with hz | hpos
  · rw [← hz]; norm_num
  · have hround : roundMagnitude r = r := by
      have := hd.1
      unfold roundDouble at this
      rwa [if_neg (not_lt.mpr h0)] at this
    have hb : binade r < 0 := binade_le r hpos 0 (by simpa using h1) (by norm_num)
    by_cases hb1 : binade r = -1
    · have hu : ulp r = 1 / 2 ^ 53 := by
        unfold ulp
        rw [hb1]
        norm_num
      unfold roundMagnitude at hround
      rw [hu] at hround
      obtain ⟨k, hk⟩ : ∃ k : Int, (k : ℚ) * (1 / 2 ^ 53) = r := ⟨_, hround⟩
      have hklt : (k : ℚ) < ((2 ^ 53 : Int) : ℚ) := by
        have : (k : ℚ) = r * 2 ^ 53 := by
          rw [← hk]; ring
        rw [this]
        push_cast
        linarith
      have hk2 : k ≤ 2 ^ 53 - 1 := by
        have := Int.cast_lt.mp hklt
        omega
      have hk3 : (k : ℚ) ≤ 2 ^ 53 - 1 := by
        exact_mod_cast hk2
      rw [← hk]
      calc (k : ℚ) * (1 / 2 ^ 53)
          ≤ (2 ^ 53 - 1) * (1 / 2 ^ 53) := mul_le_mul_of_nonneg_right hk3 (by positivity)
        _ = 1 - 1 / 2 ^ 53 := by norm_num
    · have hlog : Int.log 2 r ≤ -2 := by
        have : Int.log 2 r ≤ binade r := le_max_left _ _
        omega
      have hlt := Int.lt_zpow_succ_log_self (R := ℚ) (b := 2) (by norm_num) r
      have hle : ((2 : Nat) : ℚ) ^ (Int.log 2 r + 1) ≤ ((2 : Nat) : ℚ) ^ (-1 : Int) :=
        zpow_le_zpow_right₀ (by norm_num) (by omega)
      have hhalf : ((2 : Nat) : ℚ) ^ (-1 : Int) = 1 / 2 := by norm_num
      rw [hhalf] at hle
      have : r < 1 / 2 := lt_of_lt_of_le hlt hle
      have h2 : (1 : ℚ) / 2 ≤ 1 - 1 / 2 ^ 53 := by norm_num
      linarith

theorem binade_eq (x : ℚ) (e : Int) (hx : 0 < x) (hlo : (2 : ℚ) ^ e ≤ x)
    (hhi : x < (2 : ℚ) ^ (e + 1)) (he : -1022 ≤ e) : binade x = e := by
  have h1 : e ≤ Int.log 2 x :=
    (Int.zpow_le_iff_le_log (R := ℚ) (b := 2) (by norm_num) hx).mp (by exact_mod_cast hlo)
  have h2 : Int.log 2 x < e + 1 :=
    (Int.lt_zpow_iff_log_lt (R := ℚ) (b := 2) (by norm_num) hx).mp (by exact_mod_cast hhi)
  unfold binade
  have : Int.log 2 x = e := by omega
  rw [this]
  exact max_eq_left he

theorem roundHalfEven_intCast (z : Int) : roundHalfEven (z : ℚ) = z := by
  simp [roundHalfEven]

/-- A positive multiple of the unit of its own binade is a fixed point of the rounding. -/
theorem roundDouble_of_exact (x : ℚ) (e k : Int) (hx : 0 < x) (hlo : (2 : ℚ) ^ e ≤ x)
    (hhi : x < (2 : ℚ) ^ (e + 1)) (he : -1022 ≤ e) (hk : x = (k : ℚ) * (2 : ℚ) ^ (e - 52)) :
    roundDouble x = x := by
  have hb := binade_eq x e hx hlo hhi he
  unfold roundDouble
  rw [if_neg (not_lt.mpr hx.le)]
  unfold roundMagnitude ulp
  rw [hb]
  have hpos : (0 : ℚ) < (2 : ℚ) ^ (e - 52) := by positivity
  have hdiv : x / (2 : ℚ) ^ (e - 52) = (k : ℚ) := by
    rw [div_eq_iff hpos.ne']
    exact hk
  rw [hdiv, roundHalfEven_intCast]
  exact hk.symm

theorem isDouble_three_quarters : IsDouble (3 / 4) := by
  refine ⟨roundDouble_of_exact (3 / 4) (-1) (3 * 2 ^ 51) (by norm_num) (by norm_num)
    (by norm_num) (by norm_num) (by norm_num), ?_⟩
  rw [abs_of_pos (by norm_num)]
  norm_num

theorem randomIndex_three_quarters_of_two (a b : String) : randomIndex [a, b] (3 / 4) = 1 := by
  have hx : (3 / 4 : ℚ) * (([a, b].length : Nat) : ℚ) = 3 / 2 := by
    simp; norm_num
  unfold randomIndex
  rw [hx, roundDouble_of_exact (3 / 2) 0 (3 * 2 ^ 51) (by norm_num) (by norm_num)
    (by norm_num) (by norm_num) (by norm_num)]
  rw [Int.floor_eq_iff]
  constructor <;> norm_num

/-- Where the double product differs from the exact one: the double
`r = 3752999689475413 / 2 ^ 52` on six messages gives the exact product
`5 - 2 ^ (-51)`, a tie that rounds to `5`, so the index is `5` although the
floor of the exact product is `4`. -/
theorem randomIndex_tie (a b c d e f : String) :
    IsDouble (3752999689475413 / 2 ^ 52) ∧
    randomIndex [a, b, c, d, e, f] (3752999689475413 / 2 ^ 52) = 5 ∧
    ⌊(3752999689475413 / 2 ^ 52 : ℚ) * 6⌋ = 4 := by
  refine ⟨⟨roundDouble_of_exact _ (-1) 7505999378950826 (by norm_num) (by norm_num)
    (by norm_num) (by norm_num) (by norm_num), ?_⟩, ?_, ?_⟩
  · rw [abs_of_pos (by norm_num)]
    norm_num
  · have hx : (3752999689475413 / 2 ^ 52 : ℚ) * (([a, b, c, d, e, f].length : Nat) : ℚ) =
        5 - 1 / 2 ^ 51 := by
      simp; norm_num
    have hb : binade (5 - 1 / 2 ^ 51) = 2 :=
      binade_eq _ 2 (by norm_num) (by norm_num) (by norm_num) (by norm_num)
    have hq : (5 - 1 / 2 ^ 51 : ℚ) / (2 : ℚ) ^ ((2 : Int) - 52) = 5629499534213119 + 1 / 2 := by
      norm_num
    have hfloor : ⌊(5629499534213119 + 1 / 2 : ℚ)⌋ = 5629499534213119 := by
      rw [Int.floor_eq_iff]
      constructor <;> norm_num
    have hround : roundHalfEven (5629499534213119 + 1 / 2) = 5629499534213120 := by
      unfold roundHalfEven
      rw [hfloor]
      norm_num
    unfold randomIndex
    rw [hx]
    unfold roundDouble
    rw [if_neg (by norm_num)]
    unfold roundMagnitude ulp
    rw [hb, hq, hround]
    rw [Int.floor_eq_iff]
    constructor <;> norm_num
  · rw [Int.floor_eq_iff]
    constructor <;> norm_num

/-! ### The sampled index -/

theorem randomIndex_bounds (pool : List String) (random : ℚ) (hne : pool ≠ [])
    (hlen : pool.length < 2 ^ 53) (hdouble : IsDouble random)
    (h0 : 0 ≤ random) (h1 : random < 1) :
    0 ≤ randomIndex pool random ∧ randomIndex pool random < (pool.length : Int) := by
  have hpos : 1 ≤ pool.length := List.length_pos.mpr hne
  have hlenq : (0 : ℚ) ≤ (pool.length : ℚ) := by positivity
  have hr := double_lt_one_le random hdouble h0 h1
  have hprod : random * (pool.length : ℚ) ≤ (pool.length : ℚ) * (1 - 1 / 2 ^ 53) := by
    rw [mul_comm]
    exact mul_le_mul_of_nonneg_left hr hlenq
  obtain ⟨hlo, hhi⟩ := roundDouble_lt (random * (pool.length : ℚ)) pool.length
    (mul_nonneg h0 hlenq) hpos hlen hprod
  unfold randomIndex
  constructor
  · exact Int.floor_nonneg.mpr hlo
  · rw [Int.floor_lt]
    exact_mod_cast hhi

/-- The claim of C3 as stated fails on a pool that holds an empty string:
with pool `["Hola", ""]` and the double `3/4` as draw the index is `1`, a
valid index whose element is `""`, and the function returns
`"Bienvenido!"`, which is not an element of the pool. -/
theorem getRandomWelcomeMessage_blank_counterexample :
    loadWelcomeMessages blankPoolDisk = .ok ["Hola", ""] ∧
    IsDouble (3 / 4) ∧ (0 : ℚ) ≤ 3 / 4 ∧ (3 / 4 : ℚ) < 1 ∧
    randomIndex ["Hola", ""] (3 / 4) = 1 ∧
    elementAt ["Hola", ""] 1 = some "" ∧
    getRandomWelcomeMessage blankPoolDisk (3 / 4) = .ok "Bienvenido!" ∧
    "Bienvenido!" ∉ ["Hola", ""] := by
  have hidx : randomIndex ["Hola", ""] (3 / 4) = 1 := randomIndex_three_quarters_of_two _ _
  refine ⟨rfl, isDouble_three_quarters, by norm_num, by norm_num, hidx, rfl, ?_, by decide⟩
  have hload : loadWelcomeMessages blankPoolDisk = .ok ["Hola", ""] := rfl
  simp only [getRandomWelcomeMessage, hload, bind, Except.bind, hidx, pure, Except.pure]
  rfl

/-- C3, amended.  For every readable non-empty pool (of fewer than `2 ^ 53`
elements, as every JavaScript array is) and every double `r` in `[0, 1)`,
`Math.floor(r * length)`, the product being the double product, is a valid
index of the pool, and when the element at that index is not the empty
string the function returns that element, which is an element of the
pool. -/
theorem getRandomWelcomeMessage_picks_from_pool (d : Disk) (pool : List String)
    (random : ℚ) (hload : loadWelcomeMessages d = .ok pool) (hne : pool ≠ [])
    (hlen : pool.length < 2 ^ 53) (hdouble : IsDouble random)
    (h0 : 0 ≤ random) (h1 : random < 1) :
    ∃ (i : Nat) (m : String), randomIndex pool random = (i : Int) ∧ i < pool.length ∧
      pool[i]? = some m ∧
      (m ≠ "" → getRandomWelcomeMessage d random = .ok m ∧ m ∈ pool) := by
  obtain ⟨hlo, hhi⟩ := randomIndex_bounds pool random hne hlen hdouble h0 h1
  obtain ⟨i, hi⟩ := Int.eq_ofNat_of_zero_le hlo
  have hlt : i < pool.length := by omega
  refine ⟨i, pool[i], hi, hlt, List.getElem?_eq_getElem hlt, ?_⟩
  intro hm
  refine ⟨?_, List.getElem_mem hlt⟩
  simp [getRandomWelcomeMessage, hload, bind, Except.bind, pure, Except.pure, hi, elementAt,
    List.getElem?_eq_getElem hlt, orElse, hm]

/-- Witness for C3: draw `3/4` on a pool of two messages picks the second. -/
theorem getRandomWelcomeMessage_picks_from_pool_witness :
    ∃ (i : Nat) (m : String), randomIndex ["Hola", "Buen dia"] (3 / 4) = (i : Int) ∧
      i < ["Hola", "Buen dia"].length ∧ ["Hola", "Buen dia"][i]? = some m ∧
      (m ≠ "" → getRandomWelcomeMessage poolDisk (3 / 4) = .ok m ∧
        m ∈ ["Hola", "Buen dia"]) :=
  getRandomWelcomeMessage_picks_from_pool poolDisk ["Hola", "Buen dia"] (3 / 4) rfl
    (by decide) (by decide) isDouble_three_quarters (by norm_num) (by norm_num)

/-! ## C4 -/

/-- C4 (empty-pool fallback).  When `welcome-messages.json` is absent or
holds the empty array, `getRandomWelcomeMessage` returns `"Bienvenido!"` for
every value of the random draw, and does not throw. -/
theorem getRandomWelcomeMessage_empty_pool (d : Disk) (random : ℚ)
    (hempty : d.welcomeMessages = .absent ∨ d.welcomeMessages = .parsed []) :
    getRandomWelcomeMessage d random = .ok "Bienvenido!" := by
  have hload : loadWelcomeMessages d = .ok [] := by
    rcases hempty with h | h <;> simp [loadWelcomeMessages, loadJSONFile, h]
  simp [getRandomWelcomeMessage, hload, bind, Except.bind, pure, Except.pure, elementAt,
    orElse]

/-- Witness for C4: no pool file, draw `1/2`. -/
theorem getRandomWelcomeMessage_empty_pool_witness :
    getRandomWelcomeMessage emptyDisk (1 / 2) = .ok "Bienvenido!" :=
  getRandomWelcomeMessage_empty_pool emptyDisk (1 / 2) (Or.inl rfl)

/-! ## C5 -/

theorem initializeBotConfig_of_nonempty (d : Disk) (config : BotConfig)
    (instances : List String) (hfile : d.botConfig = .parsed config)
    (hlist : config.instances = some instances) (hne : instances ≠ []) :
    initializeBotConfig d = (config, d) := by
  have hlen : ¬ instances.length = 0 := by
    intro h
    exact hne (List.length_eq_zero.mp h)
  simp [initializeBotConfig, loadBotConfig, hfile, hlist, hlen]

theorem initializeBotConfig_cases (d : Disk) :
    initializeBotConfig d = (defaultConfig, saveBotConfig d defaultConfig) ∨
    (∃ config instances, d.botConfig = .parsed config ∧
        config.instances = some instances ∧ instances ≠ []) := by
  unfold initializeBotConfig loadBotConfig
  cases hfile : d.botConfig with
  | absent => left; simp [defaultConfig]
  | unparsable => left; simp
  | parsed config =>
    cases hlist : config.instances with
    | none => left; simp [hlist]
    | some instances =>
      by_cases hlen : instances.length = 0
      · left; simp [hlist, hlen]
      · right
        refine ⟨config, instances, rfl, hlist, ?_⟩
        intro h
        exact hlen (by simp [h])

/-- C5 (seeding and idempotence).  With no `botConfig.json`,
`initializeBotConfig` returns the config whose instance list is exactly
`["bot-1"]` and leaves that config on disk; with a config file holding a
non-empty instance list it returns that config and hands back the disk
untouched; and from every state of the config file, a second run returns the
same config and leaves the same disk as the first. -/
theorem initializeBotConfig_seeds_and_is_idempotent (d : Disk) :
    (d.botConfig = .absent →
      (initializeBotConfig d).1 = { instances := some ["bot-1"] } ∧
      (initializeBotConfig d).2.botConfig = .parsed { instances := some ["bot-1"] } ∧
      loadBotConfig (initializeBotConfig d).2 = .ok { instances := some ["bot-1"] }) ∧
    (∀ (config : BotConfig) (instances : List String), d.botConfig = .parsed config →
      config.instances = some instances → instances ≠ [] →
      initializeBotConfig d = (config, d)) ∧
    initializeBotConfig (initializeBotConfig d).2 = initializeBotConfig d := by
  refine ⟨?_, ?_, ?_⟩
  · intro habsent
    simp [initializeBotConfig, loadBotConfig, habsent, defaultConfig, saveBotConfig]
  · intro config instances hfile hlist hne
    exact initializeBotConfig_of_nonempty d config instances hfile hlist hne
  · rcases initializeBotConfig_cases d with hseed | ⟨config, instances, hfile, hlist, hne⟩
    · rw [hseed]
      exact initializeBotConfig_of_nonempty (saveBotConfig d defaultConfig) defaultConfig
        ["bot-1"] rfl rfl (by decide)
    · rw [initializeBotConfig_of_nonempty d config instances hfile hlist hne]
      exact initializeBotConfig_of_nonempty d config instances hfile hlist hne

/-- Witness for C5: seeding on the empty disk, and the no-write branch on a
disk whose config lists two instances. -/
theorem initializeBotConfig_seeds_and_is_idempotent_witness :
    ((initializeBotConfig emptyDisk).1 = { instances := some ["bot-1"] } ∧
      (initializeBotConfig emptyDisk).2.botConfig = .parsed { instances := some ["bot-1"] } ∧
      loadBotConfig (initializeBotConfig emptyDisk).2 = .ok { instances := some ["bot-1"] }) ∧
    initializeBotConfig twoBotsDisk = ({ instances := some ["bot-1", "bot-2"] }, twoBotsDisk) :=
  ⟨(initializeBotConfig_seeds_and_is_idempotent emptyDisk).1 rfl,
    (initializeBotConfig_seeds_and_is_idempotent twoBotsDisk).2.1
      { instances := some ["bot-1", "bot-2"] } ["bot-1", "bot-2"] rfl rfl (by decide)⟩

/-! ## C6 -/

theorem postInstances_of_member (d : Disk) (botInstances : List Instance) (name : String)
    (createOk : Bool) (config : BotConfig) (instances : List String)
    (hfile : d.botConfig = .parsed config) (hlist : config.instances = some instances)
    (hmem : name ∈ instances) :
    postInstances d botInstances name createOk =
      (⟨400, .thrown (.error ("Instance " ++ name ++ " already exists"))⟩, d, botInstances) := by
  simp [postInstances, loadBotConfig, hfile, hlist, hmem]

theorem postInstances_config_cases (d : Disk) (botInstances : List Instance) (name : String)
    (createOk : Bool) :
    (postInstances d botInstances name createOk).2.1 = d ∨
    (name ∉ configuredInstances d ∧
      configuredInstances (postInstances d botInstances name createOk).2.1 =
        configuredInstances d ++ [name]) := by
  unfold postInstances loadBotConfig
  cases hfile : d.botConfig with
  | absent =>
    right
    cases createOk <;>
      simp [configuredInstances, hfile, saveBotConfig, createBotInstance]
  | unparsable => left; simp
  | parsed config =>
    cases hlist : config.instances with
    | none => left; simp [hlist]
    | some instances =>
      by_cases hmem : name ∈ instances
      · left; simp [hlist, hmem]
      · right
        cases createOk <;>
          simp [configuredInstances, hfile, hlist, hmem, saveBotConfig, createBotInstance]

/-- C6 (`POST /instances` rejects duplicates).  For every config document
and every name contained in its instance list, the handler answers 400 and
hands back the disk and the registry it was given; and for every disk,
registry, name and outcome of `createBot`, an instance list without
duplicates before the request has none after it. -/
theorem postInstances_rejects_duplicates (d : Disk) (botInstances : List Instance)
    (name : String) (createOk : Bool) :
    (∀ (config : BotConfig) (instances : List String), d.botConfig = .parsed config →
      config.instances = some instances → name ∈ instances →
      (postInstances d botInstances name createOk).1.status = 400 ∧
      (postInstances d botInstances name createOk).2.1 = d ∧
      (postInstances d botInstances name createOk).2.2 = botInstances) ∧
    ((configuredInstances d).Nodup →
      (configuredInstances (postInstances d botInstances name createOk).2.1).Nodup) := by
  constructor
  · intro config instances hfile hlist hmem
    rw [postInstances_of_member d botInstances name createOk config instances hfile hlist hmem]
    exact ⟨rfl, rfl, rfl⟩
  · intro hnodup
    rcases postInstances_config_cases d botInstances name createOk with hsame | ⟨hnew, hpush⟩
    · rw [hsame]; exact hnodup
    · rw [hpush]
      refine List.Nodup.append hnodup (List.nodup_singleton name) ?_
      intro a ha hsingle
      rw [List.mem_singleton] at hsingle
      exact hnew (hsingle ▸ ha)

/-- Witness for C6: `bot-2` posted again is rejected, and posting `bot-3`
keeps the instance list free of duplicates. -/
theorem postInstances_rejects_duplicates_witness :
    ((postInstances twoBotsDisk [newInstance "bot-1", newInstance "bot-2"] "bot-2" true).1.status
        = 400 ∧
      (postInstances twoBotsDisk [newInstance "bot-1", newInstance "bot-2"] "bot-2" true).2.1
        = twoBotsDisk ∧
      (postInstances twoBotsDisk [newInstance "bot-1", newInstance "bot-2"] "bot-2" true).2.2
        = [newInstance "bot-1", newInstance "bot-2"]) ∧
    (configuredInstances
      (postInstances twoBotsDisk [newInstance "bot-1", newInstance "bot-2"] "bot-3" true).2.1).Nodup :=
  ⟨(postInstances_rejects_duplicates twoBotsDisk [newInstance "bot-1", newInstance "bot-2"]
      "bot-2" true).1 { instances := some ["bot-1", "bot-2"] } ["bot-1", "bot-2"] rfl rfl
      (by decide),
    (postInstances_rejects_duplicates twoBotsDisk [newInstance "bot-1", newInstance "bot-2"]
      "bot-3" true).2 (by decide)⟩

/-! ## C7 -/

theorem splice_zero_one {α : Type} (x : α) (xs : List α) : splice (x :: xs) 0 1 = xs := by
  simp [splice]

theorem splice_succ_one {α : Type} (x : α) (xs : List α) (i : Nat) :
    splice (x :: xs) (i + 1) 1 = x :: splice xs i 1 := by
  simp [splice, Nat.add_right_comm]

theorem filter_ne_of_not_mem_map {α : Type} (f : α → String) (a : String) (xs : List α)
    (h : a ∉ xs.map f) : xs.filter (fun y => !(f y == a)) = xs := by
  rw [List.filter_eq_self]
  intro y hy
  have : f y ≠ a := fun heq => h (heq ▸ List.mem_map_of_mem f hy)
  simp [this]

/-- Erasing the first match is filtering when the keys have no duplicate. -/
theorem splice_findIndex_of_nodup {α : Type} (f : α → String) (a : String) (xs : List α) :
    ∀ i, (xs.map f).Nodup → findIndex (fun y => f y == a) xs = some i →
      splice xs i 1 = xs.filter (fun y => !(f y == a)) := by
  induction xs with
  | nil => intro i _ h; simp [findIndex] at h
  | cons x rest ih =>
    intro i hnodup hfind
    rw [List.map_cons, List.nodup_cons] at hnodup
    by_cases hx : f x = a
    · have hi : i = 0 := by simpa [findIndex, hx] using hfind.symm
      subst hi
      rw [splice_zero_one, List.filter_cons]
      simp only [hx, beq_self_eq_true, Bool.not_true, Bool.false_eq_true, if_false]
      exact (filter_ne_of_not_mem_map f a rest (hx ▸ hnodup.1)).symm
    · have hbeq : (f x == a) = false := by simp [hx]
      simp only [findIndex, hbeq, Bool.false_eq_true, if_false, Option.map_eq_some'] at hfind
      obtain ⟨j, hj, hij⟩ := hfind
      subst hij
      rw [splice_succ_one, List.filter_cons, ih j hnodup.2 hj]
      simp [hbeq]

theorem findIndex_none_filter {α : Type} (f : α → String) (a : String) (xs : List α)
    (h : findIndex (fun y => f y == a) xs = none) :
    xs.filter (fun y => !(f y == a)) = xs := by
  induction xs with
  | nil => rfl
  | cons x rest ih =>
    by_cases hx : f x = a
    · simp [findIndex, hx] at h
    · have hbeq : (f x == a) = false := by simp [hx]
      simp only [findIndex, hbeq, Bool.false_eq_true, if_false, Option.map_eq_none'] at h
      rw [List.filter_cons, ih h]
      simp [hbeq]

theorem findIndex_of_mem (a : String) (xs : List String) (h : a ∈ xs) :
    ∃ i, indexOf xs a = some i := by
  induction xs with
  | nil => simp at h
  | cons x rest ih =>
    by_cases hx : x = a
    · exact ⟨0, by simp [indexOf, findIndex, hx]⟩
    · have hrest : a ∈ rest := by
        rcases List.mem_cons.mp h with h1 | h1
        · exact absurd h1.symm hx
        · exact h1
      obtain ⟨j, hj⟩ := ih hrest
      refine ⟨j + 1, ?_⟩
      have hbeq : (x == a) = false := by simp [hx]
      unfold indexOf at hj ⊢
      simp [findIndex, hbeq, hj]

theorem unlinkArtifact_botConfig (d : Disk) (name : String) (a : Artifact) :
    (unlinkArtifact d name a).botConfig = d.botConfig := by
  cases a
  case contacts =>
    unfold unlinkArtifact
    split_ifs <;> rfl
  all_goals rfl

theorem unlinkArtifact_qr_of_absent (d : Disk) (name : String) (a : Artifact)
    (h : d.qr name = false) : (unlinkArtifact d name a).qr name = false := by
  cases a
  case contacts =>
    unfold unlinkArtifact
    split_ifs <;> exact h
  all_goals simp [unlinkArtifact, h]

theorem removeEach_botConfig (name : String) (removeOk : Artifact → Bool)
    (artifacts : List Artifact) :
    ∀ d : Disk, (removeEach name removeOk artifacts d).botConfig = d.botConfig := by
  induction artifacts with
  | nil => intro d; rfl
  | cons a rest ih =>
    intro d
    unfold removeEach
    split_ifs
    · rw [ih, unlinkArtifact_botConfig]
    · rfl
    · exact ih d

theorem removeEach_qr_stays_absent (name : String) (removeOk : Artifact → Bool)
    (artifacts : List Artifact) :
    ∀ d : Disk, d.qr name = false → (removeEach name removeOk artifacts d).qr name = false := by
  induction artifacts with
  | nil => intro d h; exact h
  | cons a rest ih =>
    intro d h
    unfold removeEach
    split_ifs
    · exact ih _ (unlinkArtifact_qr_of_absent d name a h)
    · exact h
    · exact ih d h

theorem removeArtifacts_botConfig (d : Disk) (name : String) (removeOk : Artifact → Bool) :
    (removeArtifacts d name removeOk).botConfig = d.botConfig :=
  removeEach_botConfig name removeOk _ d

theorem removeArtifacts_qr (d : Disk) (name : String) (removeOk : Artifact → Bool)
    (hqr : d.qr name = true → removeOk .qr = true) :
    (removeArtifacts d name removeOk).qr name = false := by
  unfold removeArtifacts
  rw [removeEach]
  cases hq : d.qr name with
  | false =>
    simp only [artifactExists, hq, Bool.false_eq_true, if_false]
    exact removeEach_qr_stays_absent name removeOk _ d hq
  | true =>
    simp only [artifactExists, hq, hqr hq, if_true]
    apply removeEach_qr_stays_absent
    simp [unlinkArtifact]

/-- The claim of C7 as stated fails in two ways.  With `bot-2` listed twice
in the config and twice in the registry, `DELETE /instances/bot-2` answers
200 and `bot-2` is still in the config and still names a registry entry.
With a QR image whose `unlinkSync` throws, the handler answers 200, the
image is still there and `GET /qr/bot-2` answers 200. -/
theorem deleteInstances_counterexample :
    ("bot-2" ∈ configuredInstances duplicateDisk ∧
      (deleteInstances duplicateDisk [newInstance "bot-2", newInstance "bot-2"] "bot-2"
        removalsSucceed).1.status = 200 ∧
      "bot-2" ∈ configuredInstances
        (deleteInstances duplicateDisk [newInstance "bot-2", newInstance "bot-2"] "bot-2"
          removalsSucceed).2.1 ∧
      newInstance "bot-2" ∈
        (deleteInstances duplicateDisk [newInstance "bot-2", newInstance "bot-2"] "bot-2"
          removalsSucceed).2.2) ∧
    ("bot-2" ∈ configuredInstances qrDisk ∧
      (deleteInstances qrDisk [newInstance "bot-1", newInstance "bot-2"] "bot-2"
        qrRemovalFails).1.status = 200 ∧
      (getQr (deleteInstances qrDisk [newInstance "bot-1", newInstance "bot-2"] "bot-2"
        qrRemovalFails).2.1 "bot-2").status = 200) := by
  refine ⟨⟨by decide, by decide, by decide, by decide⟩, by decide, by decide, by decide⟩

/-- C7, amended.  When the config's instance list and the registry's names
have no duplicates and `name` is in the config, `DELETE /instances/:name`
answers 200; afterwards the config's instance list is the old one with
`name` filtered out and the registry is the old one with the entry named
`name` filtered out (so `name` occurs in neither, and the rest keep their
order); and provided the removal of the QR image does not throw, the image
is gone and `GET /qr/:name` answers 404. -/
theorem deleteInstances_removes_from_both (d : Disk) (botInstances : List Instance)
    (name : String) (removeOk : Artifact → Bool) (config : BotConfig)
    (instances : List String) (hfile : d.botConfig = .parsed config)
    (hlist : config.instances = some instances) (hmem : name ∈ instances)
    (hnodup : instances.Nodup) (hregistry : (botInstances.map (fun inst => inst.name)).Nodup) :
    (deleteInstances d botInstances name removeOk).1.status = 200 ∧
    configuredInstances (deleteInstances d botInstances name removeOk).2.1 =
      instances.filter (fun other => !(other == name)) ∧
    name ∉ configuredInstances (deleteInstances d botInstances name removeOk).2.1 ∧
    (deleteInstances d botInstances name removeOk).2.2 =
      botInstances.filter (fun inst => !(inst.name == name)) ∧
    (∀ inst ∈ (deleteInstances d botInstances name removeOk).2.2, inst.name ≠ name) ∧
    ((d.qr name = true → removeOk .qr = true) →
      (deleteInstances d botInstances name removeOk).2.1.qr name = false ∧
      (getQr (deleteInstances d botInstances name removeOk).2.1 name).status = 404) := by
  obtain ⟨index, hindex⟩ := findIndex_of_mem name instances hmem
  have hsplice : splice instances index 1 = instances.filter (fun other => !(other == name)) :=
    splice_findIndex_of_nodup (fun other => other) name instances index
      (by simpa using hnodup) hindex
  have hreg : (match findIndex (fun inst => inst.name == name) botInstances with
      | some instanceIndex => splice botInstances instanceIndex 1
      | none => botInstances) = botInstances.filter (fun inst => !(inst.name == name)) := by
    cases hfind : findIndex (fun inst => inst.name == name) botInstances with
    | none => exact (findIndex_none_filter (fun inst => inst.name) name botInstances hfind).symm
    | some instanceIndex =>
      exact splice_findIndex_of_nodup (fun inst => inst.name) name botInstances instanceIndex
        hregistry hfind
  have hout : deleteInstances d botInstances name removeOk =
      (⟨200, .listing ("Instance " ++ name ++ " deleted successfully")
          ((botInstances.filter (fun inst => !(inst.name == name))).map (fun inst =>
            { name := inst.name, status := statusText inst, contactCount := some 0 }))⟩,
        removeArtifacts
          (saveBotConfig d ⟨some (instances.filter (fun other => !(other == name)))⟩)
          name removeOk,
        botInstances.filter (fun inst => !(inst.name == name))) := by
    simp only [deleteInstances, loadBotConfig, hfile, hlist, hindex, hsplice, hreg]
  rw [hout]
  have hconfig : configuredInstances (removeArtifacts
      (saveBotConfig d ⟨some (instances.filter (fun other => !(other == name)))⟩)
      name removeOk) =
      instances.filter (fun other => !(other == name)) := by
    simp [configuredInstances, removeArtifacts_botConfig, saveBotConfig]
  refine ⟨rfl, hconfig, ?_, rfl, ?_, ?_⟩
  · rw [hconfig]
    simp
  · intro inst hinst
    simpa using (List.mem_filter.mp hinst).2
  · intro hqr
    have hgone := removeArtifacts_qr
      (saveBotConfig d ⟨some (instances.filter (fun other => !(other == name)))⟩)
      name removeOk hqr
    exact ⟨hgone, by simp [getQr, hgone]⟩

/-- Witness for C7: deleting `bot-2` from a disk with two instances and the
QR image of `bot-2`, every removal succeeding. -/
theorem deleteInstances_removes_from_both_witness :
    (deleteInstances qrDisk [newInstance "bot-1", newInstance "bot-2"] "bot-2"
      removalsSucceed).1.status = 200 ∧
    configuredInstances (deleteInstances qrDisk [newInstance "bot-1", newInstance "bot-2"]
      "bot-2" removalsSucceed).2.1 = ["bot-1"] ∧
    (deleteInstances qrDisk [newInstance "bot-1", newInstance "bot-2"] "bot-2"
      removalsSucceed).2.2 = [newInstance "bot-1"] ∧
    (getQr (deleteInstances qrDisk [newInstance "bot-1", newInstance "bot-2"] "bot-2"
      removalsSucceed).2.1 "bot-2").status = 404 :=
  have h := deleteInstances_removes_from_both qrDisk
    [newInstance "bot-1", newInstance "bot-2"] "bot-2" removalsSucceed
    { instances := some ["bot-1", "bot-2"] } ["bot-1", "bot-2"] rfl rfl
    (by decide) (by decide) (by decide)
  ⟨h.1, h.2.1.trans (by decide), h.2.2.2.1.trans (by decide), (h.2.2.2.2.2 (fun _ => rfl)).2⟩

/-! ## C8 -/

theorem isNewContact_of_load (d : Disk) (botName phone : String)
    (ledger : List ContactRecord) (hload : loadContacts d botName = .ok ledger) :
    isNewContact d botName phone =
      .ok (!ledger.any (fun contact => contact.phone == phone)) := by
  simp [isNewContact, hload, bind, Except.bind, pure, Except.pure]

theorem recordsFor_eq_zero_iff (phone : String) (ledger : List ContactRecord) :
    recordsFor phone ledger = 0 ↔ ∀ c ∈ ledger, c.phone ≠ phone := by
  rw [← any_phone_eq_false_iff]
  simp [List.any_eq_false]

theorem getRandomWelcomeMessage_of_load (d : Disk) (random : ℚ) (pool : List String)
    (hpool : loadWelcomeMessages d = .ok pool) :
    getRandomWelcomeMessage d random =
      .ok (orElse (elementAt pool (randomIndex pool random)) "Bienvenido!") := by
  simp [getRandomWelcomeMessage, hpool, bind, Except.bind, pure, Except.pure]

/-- C8 (welcome-flow decision).  With a readable ledger and a readable pool:
`isNewContact` answers false exactly when some record has the phone; in that
case the flow sends nothing and hands back the disk unchanged; otherwise it
sends exactly one message, the one `getRandomWelcomeMessage` returned, and
the ledger afterwards is the old one followed by one record for the phone
whose `responseMessage` is the message sent, the only record for that
phone. -/
theorem welcomeAction_decision (d : Disk) (botName phone : String) (random : ℚ) (now : Now)
    (ledger : List ContactRecord) (pool : List String)
    (hledger : loadContacts d botName = .ok ledger)
    (hpool : loadWelcomeMessages d = .ok pool) :
    (isNewContact d botName phone = .ok false ↔ ∃ c ∈ ledger, c.phone = phone) ∧
    ((∃ c ∈ ledger, c.phone = phone) →
      welcomeAction d botName phone random now = .ok ([], d)) ∧
    ((∀ c ∈ ledger, c.phone ≠ phone) →
      ∃ message d1, welcomeAction d botName phone random now = .ok ([message], d1) ∧
        getRandomWelcomeMessage d random = .ok message ∧
        loadContacts d1 botName = .ok (ledger ++ [newRecord phone message now]) ∧
        recordsFor phone (ledger ++ [newRecord phone message now]) = 1 ∧
        (∀ c ∈ ledger ++ [newRecord phone message now],
          c.phone = phone → c.responseMessage = message)) := by
  have hnew := isNewContact_of_load d botName phone ledger hledger
  have hmsg := getRandomWelcomeMessage_of_load d random pool hpool
  refine ⟨?_, ?_, ?_⟩
  · rw [hnew]
    simp [List.any_eq_true]
  · intro hsome
    have hany : ledger.any (fun contact => contact.phone == phone) = true := by
      simpa [List.any_eq_true] using hsome
    simp [welcomeAction, hnew, hany, bind, Except.bind, pure, Except.pure]
  · intro hnone
    have hzero : recordsFor phone ledger = 0 := (recordsFor_eq_zero_iff phone ledger).mpr hnone
    have hany := (any_phone_eq_false_iff phone ledger).mpr hzero
    have hadd := addContact_of_load d botName phone
      (orElse (elementAt pool (randomIndex pool random)) "Bienvenido!") now ledger hledger
    rw [if_pos hzero] at hadd
    refine ⟨orElse (elementAt pool (randomIndex pool random)) "Bienvenido!", _, ?_, hmsg,
      loadContacts_saveContacts d botName _, ?_, ?_⟩
    · simp [welcomeAction, hnew, hany, hmsg, hadd, bind, Except.bind, pure, Except.pure]
    · rw [recordsFor_append_own, hzero]
    · intro c hc hphone
      rcases List.mem_append.mp hc with hold | hlast
      · exact absurd hphone (hnone c hold)
      · rw [List.mem_singleton] at hlast
        rw [hlast]
        rfl

/-- Witness for C8: a phone already greeted gets nothing; a new phone gets
one message, recorded with it. -/
theorem welcomeAction_decision_witness :
    welcomeAction greetedDisk "bot-1" "5491100000000" (3 / 4) evening = .ok ([], greetedDisk) ∧
    ∃ message d1, welcomeAction greetedDisk "bot-1" "5491122222222" (3 / 4) evening =
        .ok ([message], d1) ∧
      getRandomWelcomeMessage greetedDisk (3 / 4) = .ok message ∧
      loadContacts d1 "bot-1" = .ok ([newRecord "5491100000000" "Hola" morning] ++
        [newRecord "5491122222222" message evening]) ∧
      recordsFor "5491122222222" ([newRecord "5491100000000" "Hola" morning] ++
        [newRecord "5491122222222" message evening]) = 1 ∧
      (∀ c ∈ [newRecord "5491100000000" "Hola" morning] ++
          [newRecord "5491122222222" message evening],
        c.phone = "5491122222222" → c.responseMessage = message) :=
  ⟨(welcomeAction_decision greetedDisk "bot-1" "5491100000000" (3 / 4) evening
      [newRecord "5491100000000" "Hola" morning] ["Hola", "Buen dia"]
      (loadContacts_saveContacts poolDisk "bot-1" _) rfl).2.1
      ⟨newRecord "5491100000000" "Hola" morning, by simp, rfl⟩,
    (welcomeAction_decision greetedDisk "bot-1" "5491122222222" (3 / 4) evening
      [newRecord "5491100000000" "Hola" morning] ["Hola", "Buen dia"]
      (loadContacts_saveContacts poolDisk "bot-1" _) rfl).2.2
      (by decide)⟩

/-! ## C9 -/

theorem onEvent_isConnected (inst : Instance) (event : LifecycleEvent) :
    (onEvent inst event).isConnected = decide (event = .ready) := by
  cases event <;> rfl

/-- The status after a sequence of events is decided by the last one. -/
theorem afterEvents_isConnected (events : List LifecycleEvent) :
    ∀ inst : Instance, (afterEvents inst events).isConnected =
      (match events.getLast? with
        | none => inst.isConnected
        | some event => decide (event = .ready)) := by
  induction events with
  | nil => intro inst; rfl
  | cons event rest ih =>
    intro inst
    have hstep : afterEvents inst (event :: rest) = afterEvents (onEvent inst event) rest := rfl
    rw [hstep, ih]
    cases rest with
    | nil => simp [onEvent_isConnected]
    | cons next more =>
      rw [List.getLast?_cons_cons]
      cases hlast : (next :: more).getLast? with
      | none => simp at hlast
      | some last => rfl

theorem length_updateAt {α : Type} (f : α → α) (xs : List α) :
    ∀ i, (updateAt f xs i).length = xs.length := by
  induction xs with
  | nil => intro i; rfl
  | cons x rest ih =>
    intro i
    cases i with
    | zero => rfl
    | succ k => simp [updateAt, ih k]

theorem getElem?_updateAt_ne {α : Type} (f : α → α) (xs : List α) :
    ∀ i j, j ≠ i → (updateAt f xs i)[j]? = xs[j]? := by
  induction xs with
  | nil => intro i j _; rfl
  | cons x rest ih =>
    intro i j hne
    cases i with
    | zero =>
      cases j with
      | zero => exact absurd rfl hne
      | succ k => simp [updateAt]
    | succ m =>
      cases j with
      | zero => simp [updateAt]
      | succ k =>
        simp only [updateAt, List.getElem?_cons_succ]
        exact ih m k (fun h => hne (by rw [h]))

theorem getElem?_updateAt_self {α : Type} (f : α → α) (xs : List α) :
    ∀ i, (updateAt f xs i)[i]? = xs[i]?.map f := by
  induction xs with
  | nil => intro i; rfl
  | cons x rest ih =>
    intro i
    cases i with
    | zero => simp [updateAt]
    | succ m =>
      simp only [updateAt, List.getElem?_cons_succ]
      exact ih m

/-- The index found by `findIndex` holds an element that satisfies the
predicate. -/
theorem findIndex_some_sat {α : Type} (p : α → Bool) (xs : List α) :
    ∀ i, findIndex p xs = some i → ∃ x, xs[i]? = some x ∧ p x = true := by
  induction xs with
  | nil => intro i h; simp [findIndex] at h
  | cons x rest ih =>
    intro i h
    by_cases hx : p x = true
    · have hi : i = 0 := by simpa [findIndex, hx] using h.symm
      subst hi
      exact ⟨x, by simp, hx⟩
    · have hfalse : p x = false := by simpa using hx
      simp only [findIndex, hfalse, Bool.false_eq_true, if_false, Option.map_eq_some'] at h
      obtain ⟨j, hj, hij⟩ := h
      subst hij
      obtain ⟨y, hy, hpy⟩ := ih j hj
      exact ⟨y, by simpa using hy, hpy⟩

/-- The registry the restart handler leaves. -/
theorem restartInstance_registry (d : Disk) (botInstances : List Instance)
    (botName : String) (rmOk : Bool) :
    (restartInstance d botInstances botName rmOk).2.2 = botInstances ∨
    ∃ i, findIndex (fun inst => inst.name == botName) botInstances = some i ∧
      (restartInstance d botInstances botName rmOk).2.2 =
        updateAt markRestarted botInstances i := by
  by_cases hthrow : (artifactExists d botName .sessions && !rmOk) = true
  · left
    simp only [restartInstance, hthrow, if_true]
  · cases hfind : findIndex (fun inst => inst.name == botName) botInstances with
    | none =>
      left
      simp only [restartInstance, hthrow, if_false, hfind, Bool.false_eq_true]
    | some i =>
      right
      refine ⟨i, rfl, ?_⟩
      simp only [restartInstance, hthrow, if_false, hfind, Bool.false_eq_true]

/-- A restart that answers 200 applies the restart event to the entry that
`find` returns. -/
theorem restartInstance_found (d : Disk) (botInstances : List Instance)
    (botName : String) (rmOk : Bool) (i : Nat) (inst : Instance)
    (hstatus : (restartInstance d botInstances botName rmOk).1.status = 200)
    (hfind : findIndex (fun inst => inst.name == botName) botInstances = some i)
    (hinst : botInstances[i]? = some inst) :
    (restartInstance d botInstances botName rmOk).2.2[i]? = some (onEvent inst .restart) := by
  by_cases hthrow : (artifactExists d botName .sessions && !rmOk) = true
  · simp [restartInstance, hthrow] at hstatus
  · have hreg : (restartInstance d botInstances botName rmOk).2.2 =
        updateAt markRestarted botInstances i := by
      simp only [restartInstance, hthrow, if_false, hfind, Bool.false_eq_true]
    rw [hreg, getElem?_updateAt_self, hinst]
    rfl

/-- C9 (connection-status state machine).  A newly created instance is
Disconnected; after every finite sequence of the events `qr`, `ready`,
`require_action` and restart applied to it, it is Connected exactly when the
sequence is non-empty and ends with `ready`; the restart handler, for every
registry and name, keeps the length of the registry and leaves every entry
with another name as it was, at its position; and when it answers 200 the
entry it finds under the name receives the restart event. -/
theorem connection_status_state_machine :
    (∀ name : String, (newInstance name).isConnected = false ∧
      createBotInstance name true = .ok (newInstance name)) ∧
    (∀ (name : String) (events : List LifecycleEvent),
      (afterEvents (newInstance name) events).isConnected = true ↔
        events ≠ [] ∧ events.getLast? = some .ready) ∧
    (∀ (d : Disk) (botInstances : List Instance) (botName : String) (rmOk : Bool),
      (restartInstance d botInstances botName rmOk).2.2.length = botInstances.length ∧
      ∀ (i : Nat) (inst : Instance), botInstances[i]? = some inst → inst.name ≠ botName →
        (restartInstance d botInstances botName rmOk).2.2[i]? = some inst) ∧
    (∀ (d : Disk) (botInstances : List Instance) (botName : String) (rmOk : Bool) (i : Nat)
      (inst : Instance), (restartInstance d botInstances botName rmOk).1.status = 200 →
      findIndex (fun inst => inst.name == botName) botInstances = some i →
      botInstances[i]? = some inst →
      (restartInstance d botInstances botName rmOk).2.2[i]? =
        some (onEvent inst .restart)) := by
  refine ⟨fun name => ⟨rfl, rfl⟩, ?_, ?_, restartInstance_found⟩
  · intro name events
    rw [afterEvents_isConnected]
    cases hlast : events.getLast? with
    | none => simp [newInstance]
    | some event =>
      have hne : events ≠ [] := by
        intro h
        simp [h] at hlast
      simp [hne]
  · intro d botInstances botName rmOk
    rcases restartInstance_registry d botInstances botName rmOk with hsame | ⟨k, hfind, hupd⟩
    · rw [hsame]
      exact ⟨rfl, fun i inst h _ => h⟩
    · rw [hupd]
      refine ⟨length_updateAt _ _ _, ?_⟩
      intro i inst hinst hname
      obtain ⟨found, hfound, hsat⟩ := findIndex_some_sat _ botInstances k hfind
      have hik : i ≠ k := by
        intro h
        rw [h, hfound] at hinst
        have hsame : found = inst := Option.some.inj hinst
        rw [hsame] at hsat
        exact hname (by simpa using hsat)
      rw [getElem?_updateAt_ne markRestarted botInstances k i hik]
      exact hinst

/-- Witness for C9: `qr, ready` ends Connected, `ready, restart` does not,
and restarting `bot-1` leaves a connected `bot-2` connected. -/
theorem connection_status_state_machine_witness :
    (afterEvents (newInstance "bot-1") [.qr, .ready]).isConnected = true ∧
    ¬ (afterEvents (newInstance "bot-1") [.ready, .restart]).isConnected = true ∧
    (restartInstance emptyDisk [⟨"bot-1", true⟩, ⟨"bot-2", true⟩] "bot-1" true).2.2[1]? =
      some ⟨"bot-2", true⟩ ∧
    (restartInstance emptyDisk [⟨"bot-1", true⟩, ⟨"bot-2", true⟩] "bot-1" true).2.2[0]? =
      some (onEvent ⟨"bot-1", true⟩ .restart) :=
  ⟨(connection_status_state_machine.2.1 "bot-1" [.qr, .ready]).mpr ⟨by decide, by decide⟩,
    fun h => absurd
      ((connection_status_state_machine.2.1 "bot-1" [.ready, .restart]).mp h).2 (by decide),
    (connection_status_state_machine.2.2.1 emptyDisk [⟨"bot-1", true⟩, ⟨"bot-2", true⟩]
      "bot-1" true).2 1 ⟨"bot-2", true⟩ rfl (by decide),
    connection_status_state_machine.2.2.2 emptyDisk [⟨"bot-1", true⟩, ⟨"bot-2", true⟩]
      "bot-1" true 0 ⟨"bot-1", true⟩ (by decide) (by decide) rfl⟩

/-! ## C10 -/

theorem getElem?_splice_one {α : Type} (xs : List α) (start : Nat)
    (hstart : start < xs.length) :
    (splice xs start 1).length + 1 = xs.length ∧
    (∀ j, j < start → (splice xs start 1)[j]? = xs[j]?) ∧
    (∀ j, start ≤ j → (splice xs start 1)[j]? = xs[j + 1]?) := by
  unfold splice
  refine ⟨?_, ?_, ?_⟩
  · simp only [List.length_append, List.length_take, List.length_drop]
    omega
  · intro j hj
    rw [List.getElem?_append_left (by simp only [List.length_take]; omega)]
    exact List.getElem?_take_of_lt hj
  · intro j hj
    have hlen : (xs.take start).length = start := by
      simp only [List.length_take]; omega
    rw [List.getElem?_append_right (by omega), hlen, List.getElem?_drop]
    congr 1
    omega

theorem loadWelcomeMessages_save (d : Disk) (messages : List String) :
    loadWelcomeMessages (saveWelcomeMessages d messages) = .ok messages := rfl

theorem postMessages_of_load (d : Disk) (message : String) (pool : List String)
    (hload : loadWelcomeMessages d = .ok pool) :
    postMessages d message =
      .ok (⟨200, .success⟩, saveWelcomeMessages d (pool ++ [message])) := by
  simp [postMessages, hload, bind, Except.bind, pure, Except.pure]

theorem deleteMessages_of_load (d : Disk) (id : Int) (pool : List String)
    (hload : loadWelcomeMessages d = .ok pool) (h0 : 0 ≤ id)
    (hlt : id < (pool.length : Int)) :
    deleteMessages d (some id) =
      .ok (⟨200, .success⟩, saveWelcomeMessages d (splice pool id.toNat 1)) := by
  have hin : 0 ≤ id ∧ id < (pool.length : Int) := ⟨h0, hlt⟩
  simp [deleteMessages, hload, bind, Except.bind, pure, Except.pure, hin]

/-- C10 (in-range removal).  For every readable pool and every integer `id`
with `0 ≤ id < length`, `DELETE /messages/:id` answers success and stores
the pool that is one shorter, agrees with the old pool below `id` and holds
the old element `j + 1` at every position `j` from `id` on; and from a disk
whose pool is absent or empty, `POST m1`, `POST m2`, `DELETE 0` leaves the
stored pool equal to `[m2]`. -/
theorem deleteMessages_in_range (d : Disk) :
    (∀ (pool : List String) (id : Int), loadWelcomeMessages d = .ok pool →
      0 ≤ id → id < (pool.length : Int) →
      ∃ stored, deleteMessages d (some id) =
          .ok (⟨200, .success⟩, saveWelcomeMessages d stored) ∧
        (saveWelcomeMessages d stored).welcomeMessages = .parsed stored ∧
        stored.length + 1 = pool.length ∧
        (∀ j, j < id.toNat → stored[j]? = pool[j]?) ∧
        (∀ j, id.toNat ≤ j → stored[j]? = pool[j + 1]?)) ∧
    (∀ first second : String, loadWelcomeMessages d = .ok [] →
      postPostDelete d first second = .ok (.parsed [second])) := by
  constructor
  · intro pool id hload h0 hlt
    obtain ⟨hlen, hbelow, hfrom⟩ := getElem?_splice_one pool id.toNat (by omega)
    exact ⟨splice pool id.toNat 1, deleteMessages_of_load d id pool hload h0 hlt, rfl, hlen,
      hbelow, hfrom⟩
  · intro first second hload
    have hfirst := postMessages_of_load d first [] hload
    have hsecond := postMessages_of_load (saveWelcomeMessages d ([] ++ [first])) second
      ([] ++ [first]) (loadWelcomeMessages_save d _)
    have hdelete := deleteMessages_of_load
      (saveWelcomeMessages (saveWelcomeMessages d ([] ++ [first])) (([] ++ [first]) ++ [second]))
      0 (([] ++ [first]) ++ [second]) (loadWelcomeMessages_save _ _) (by decide) (by simp)
    simp only [postPostDelete, hfirst, hsecond, hdelete, bind, Except.bind, pure, Except.pure]
    rfl

/-- Witness for C10: deleting index 0 of a pool of two, and the end-to-end
scenario from the empty disk. -/
theorem deleteMessages_in_range_witness :
    (∃ stored, deleteMessages poolDisk (some 0) =
        .ok (⟨200, .success⟩, saveWelcomeMessages poolDisk stored) ∧
      (saveWelcomeMessages poolDisk stored).welcomeMessages = .parsed stored ∧
      stored.length + 1 = ["Hola", "Buen dia"].length ∧
      (∀ j, j < (0 : Int).toNat → stored[j]? = ["Hola", "Buen dia"][j]?) ∧
      (∀ j, (0 : Int).toNat ≤ j → stored[j]? = ["Hola", "Buen dia"][j + 1]?)) ∧
    postPostDelete emptyDisk "Hola" "Buen dia" = .ok (.parsed ["Buen dia"]) :=
  ⟨(deleteMessages_in_range poolDisk).1 ["Hola", "Buen dia"] 0 rfl (by decide) (by decide),
    (deleteMessages_in_range emptyDisk).2 "Hola" "Buen dia" rfl⟩

/-! ## C11 -/

theorem deleteContacts_of_parsed (d : Disk) (botName phone : String)
    (ledger : List ContactRecord) (hfound : (contactsAtQrDir d botName).isPresent = true)
    (hfile : d.contacts botName = .parsed ledger) :
    deleteContacts d botName phone =
      (⟨200, .done "Contact deleted successfully"⟩,
        saveContacts d botName (recordsOfOthers phone ledger)) := by
  simp [deleteContacts, loadContacts, loadJSONFile, hfile, hfound, recordsOfOthers, bne]

theorem recordsOfOthers_of_absent (phone : String) (ledger : List ContactRecord)
    (habsent : ∀ c ∈ ledger, c.phone ≠ phone) : recordsOfOthers phone ledger = ledger := by
  unfold recordsOfOthers
  rw [List.filter_eq_self]
  intro c hc
  simp [habsent c hc]

theorem saveContacts_same (d : Disk) (botName : String) (ledger : List ContactRecord)
    (hfile : d.contacts botName = .parsed ledger) : saveContacts d botName ledger = d := by
  unfold saveContacts
  rw [← hfile, Function.update_eq_self]

/-- What the handler does once its existence test on the `QR_DIR` path
succeeds, as it does for every existing ledger of a process started in the
application directory: it answers success and stores the ledger filtered
of the records of the phone, the other records in their order and the
other instances' ledgers untouched; afterwards `isNewContact` for the phone
is true; and when no record has the phone the disk equals the one before
the call. -/
theorem deleteContacts_filters_when_found (d : Disk) (botName phone : String)
    (ledger : List ContactRecord) (hfound : (contactsAtQrDir d botName).isPresent = true)
    (hfile : d.contacts botName = .parsed ledger) :
    ∃ stored, (deleteContacts d botName phone).1.status = 200 ∧
      (deleteContacts d botName phone).2.contacts botName = .parsed stored ∧
      stored = ledger.filter (fun contact => !(contact.phone == phone)) ∧
      (∀ c, c ∈ stored ↔ c ∈ ledger ∧ c.phone ≠ phone) ∧
      stored.Sublist ledger ∧
      (∀ other, other ≠ botName →
        (deleteContacts d botName phone).2.contacts other = d.contacts other) ∧
      isNewContact (deleteContacts d botName phone).2 botName phone = .ok true ∧
      ((∀ c ∈ ledger, c.phone ≠ phone) →
        stored = ledger ∧ (deleteContacts d botName phone).2 = d) := by
  rw [deleteContacts_of_parsed d botName phone ledger hfound hfile]
  have hmem : ∀ c, c ∈ recordsOfOthers phone ledger ↔ c ∈ ledger ∧ c.phone ≠ phone := by
    intro c
    simp [recordsOfOthers, List.mem_filter]
  have hzero : recordsFor phone (recordsOfOthers phone ledger) = 0 := by
    rw [recordsFor_eq_zero_iff]
    intro c hc
    exact ((hmem c).mp hc).2
  refine ⟨recordsOfOthers phone ledger, rfl, ?_, rfl, hmem, List.filter_sublist ledger, ?_, ?_, ?_⟩
  · simp [saveContacts]
  · intro other hne
    exact saveContacts_contacts_of_ne d botName other _ hne
  · rw [isNewContact_of_load _ botName phone (recordsOfOthers phone ledger)
      (loadContacts_saveContacts d botName _), (any_phone_eq_false_iff phone _).mpr hzero]
    rfl
  · intro habsent
    have hsame := recordsOfOthers_of_absent phone ledger habsent
    refine ⟨hsame, ?_⟩
    show saveContacts d botName (recordsOfOthers phone ledger) = d
    rw [hsame]
    exact saveContacts_same d botName ledger hfile

/-- The handler on a process started in the application directory: the
one greeted phone of `bot-1` is removed and is new again. -/
theorem deleteContacts_in_app_dir :
    (deleteContacts greetedDisk "bot-1" "5491100000000").1.status = 200 ∧
    (deleteContacts greetedDisk "bot-1" "5491100000000").2.contacts "bot-1" = .parsed [] ∧
    isNewContact (deleteContacts greetedDisk "bot-1" "5491100000000").2 "bot-1"
      "5491100000000" = .ok true :=
  have ⟨stored, hstatus, hfile, hstored, _, _, _, hnew, _⟩ :=
    deleteContacts_filters_when_found greetedDisk "bot-1" "5491100000000"
      [newRecord "5491100000000" "Hola" morning]
      (by simp [greetedDisk, contactsAtQrDir, saveContacts, poolDisk, saveWelcomeMessages,
        emptyDisk, JSONFile.isPresent])
      (by simp [greetedDisk, saveContacts])
  have hempty : stored = [] := hstored.trans (by decide)
  ⟨hstatus, hempty ▸ hfile, hnew⟩

/-- C11, the code at its failing input.  A process started outside the
application directory: the welcome flow of `bot-1` records a phone in the
ledger that `loadContacts` reads, so the ledger exists and `isNewContact`
is false; `DELETE /contacts/bot-1/<phone>` tests the `QR_DIR` path, finds no
file there, answers 404 "Contacts file not found" and leaves the disk as it
was: the record is still in the ledger and `isNewContact` is still false,
where the claim has the record filtered out and `isNewContact` true. -/
theorem deleteContacts_misses_ledger_outside_app_dir :
    addContact awayDisk "bot-1" "5491100000000" "Hola" morning = .ok awayGreetedDisk ∧
    awayGreetedDisk.contacts "bot-1" = .parsed [newRecord "5491100000000" "Hola" morning] ∧
    isNewContact awayGreetedDisk "bot-1" "5491100000000" = .ok false ∧
    deleteContacts awayGreetedDisk "bot-1" "5491100000000" =
      (⟨404, .failure "Contacts file not found"⟩, awayGreetedDisk) ∧
    loadContacts (deleteContacts awayGreetedDisk "bot-1" "5491100000000").2 "bot-1" =
      .ok [newRecord "5491100000000" "Hola" morning] ∧
    isNewContact (deleteContacts awayGreetedDisk "bot-1" "5491100000000").2 "bot-1"
      "5491100000000" = .ok false := by
  have hledger : awayGreetedDisk.contacts "bot-1" =
      .parsed [newRecord "5491100000000" "Hola" morning] := by
    simp [awayGreetedDisk, saveContacts]
  have hload : loadContacts awayGreetedDisk "bot-1" =
      .ok [newRecord "5491100000000" "Hola" morning] := by
    simp [loadContacts, hledger, loadJSONFile]
  have hknown : isNewContact awayGreetedDisk "bot-1" "5491100000000" = .ok false := by
    rw [isNewContact_of_load _ _ _ _ hload]
    rfl
  have hdelete : deleteContacts awayGreetedDisk "bot-1" "5491100000000" =
      (⟨404, .failure "Contacts file not found"⟩, awayGreetedDisk) := by
    simp [deleteContacts, contactsAtQrDir, awayGreetedDisk, awayDisk, emptyDisk, saveContacts,
      JSONFile.isPresent]
  refine ⟨?_, hledger, hknown, hdelete, ?_, ?_⟩
  · rw [addContact_of_load awayDisk "bot-1" "5491100000000" "Hola" morning [] rfl]
    rfl
  · rw [hdelete]
    exact hload
  · rw [hdelete]
    exact hknown

end Bottywa
